import Mathlib

/-
Shallow embedding of the debug-agent-cli recorder/replay core
(src/src/recorder.ts, src/src/replay.ts).

Modelling conventions:
- JavaScript numbers are modelled as ℚ.
- A JS `Map` is modelled as an insertion-ordered association list
  `List (String × ℕ)`; tabs (Playwright `Page` handles) are natural ids.
- The external automation layer (Playwright) and user-supplied hook code are
  modelled by an oracle `Env` that decides the outcome of each external call
  (success / thrown exception / navigation failure message).
-/

namespace DebugAgent

/-- NetworkConditions from src/types.ts: offline flag, throughputs in
bytes/sec (-1 = unlimited) and latency in ms. -/
structure NetworkConditions where
  offline : Bool
  downloadThroughput : ℚ
  uploadThroughput : ℚ
  latency : ℚ
deriving Repr, DecidableEq

/-- Preset table of BrowserRecorder.getNetworkPresets (recorder.ts lines
44-77), in object-literal insertion order (the order Object.entries yields). -/
def getNetworkPresets : List (String × NetworkConditions) :=
  [ ("Fast 3G", ⟨false, 150 * 1024, 75 * 1024, 562.5⟩)
  , ("Slow 3G", ⟨false, 50 * 1024, 50 * 1024, 2000⟩)
  , ("Fast 4G", ⟨false, 400 * 1024, 400 * 1024, 20⟩)
  , ("Offline", ⟨true, 0, 0, 0⟩)
  , ("No throttling", ⟨false, -1, -1, 0⟩) ]

/-- BrowserRecorder.detectNetworkConditionsChange (recorder.ts lines 79-95):
returns the first preset whose offline flag and throughputs match exactly and
whose latency differs by strictly less than 10 ms; `none` models the
`Custom (...)` label branch, whose string embeds the observed numbers. -/
def detectNetworkConditionsChange (c : NetworkConditions) : Option String :=
  (getNetworkPresets.find? (fun p =>
    p.2.offline == c.offline
    && p.2.downloadThroughput == c.downloadThroughput
    && p.2.uploadThroughput == c.uploadThroughput
    && decide (|p.2.latency - c.latency| < 10))).map Prod.fst

/-- Error-message substrings that Replay.replayEvent (replay.ts lines
497-502) treats as connectivity-class navigation failures. -/
def offlineErrorPatterns : List String :=
  [ "ERR_INTERNET_DISCONNECTED"
  , "ERR_NAME_NOT_RESOLVED"
  , "ERR_NETWORK_CHANGED"
  , "ERR_ABORTED" ]

/-- Test whether `p` occurs as a contiguous run inside `l` (the semantics of
JavaScript String.prototype.includes, at the character-list level). -/
def listContains (p l : List Char) : Bool :=
  l.tails.any (fun t => p.isPrefixOf t)

/-- Model of the isOfflineError test in Replay.replayEvent: the error message
contains one of the four connectivity-failure substrings. -/
def isOfflineError (msg : String) : Bool :=
  offlineErrorPatterns.any (fun pat => listContains pat.data msg.data)

/-- Classification of a navigation-failure log line. -/
inductive LogClass where
  | warning
  | error
deriving Repr, DecidableEq

/-- Replay.replayEvent lines 504-508: a connectivity-class failure is logged
as a warning, any other navigation failure as an error. The current
offline-emulation state is not consulted. -/
def navFailureLogClass (msg : String) : LogClass :=
  if isOfflineError msg then .warning else .error

/-- JS Map.get: value of the entry with the given key, if any. -/
def mapGet (m : List (String × ℕ)) (k : String) : Option ℕ :=
  (m.find? (fun kv => kv.1 == k)).map Prod.snd

/-- JS Map.set: update an existing key in place, else append (insertion
order is preserved, as for a JavaScript Map). -/
def mapSet (m : List (String × ℕ)) (k : String) (v : ℕ) : List (String × ℕ) :=
  if m.any (fun kv => kv.1 == k) then
    m.map (fun kv => if kv.1 == k then (k, v) else kv)
  else m ++ [(k, v)]

/-- JS Map.delete. -/
def mapDelete (m : List (String × ℕ)) (k : String) : List (String × ℕ) :=
  m.filter (fun kv => kv.1 != k)

/-- Tab resolution used by the dispatch cases of Replay.replayEvent
(replay.ts lines 461-462, 514-515, 526, 543, 552, 563, 578):
`event.pageId ? pageMap.get(event.pageId) : Array.from(pageMap.values())[0]`.
When the event carries a pageId the map is consulted (yielding no tab if the
id is absent); only an event without a pageId falls back to the first
currently tracked tab. -/
def resolveTab (pageId : Option String) (pageMap : List (String × ℕ)) : Option ℕ :=
  match pageId with
  | some pid => mapGet pageMap pid
  | none => (pageMap.map Prod.snd).head?

/-- Which of the four recognized hook names an evaluated instrumentation
value exposes as functions. -/
structure HookPresence where
  setup : Bool
  onBeforeEvent : Bool
  onAfterEvent : Bool
  onComplete : Bool
deriving Repr, DecidableEq

/-- HookPresence with no hook. -/
def noHooks : HookPresence := ⟨false, false, false, false⟩

/-- HookPresence exposing all four hooks. -/
def allHooks : HookPresence := ⟨true, true, true, true⟩

/-- At least one recognized hook is exposed (the `.some` test of
tryCompileInstrumentation). -/
def HookPresence.hasHook (h : HookPresence) : Bool :=
  h.setup || h.onBeforeEvent || h.onAfterEvent || h.onComplete

/-- Model of a JavaScript value as far as the instrumentation adapter
inspects it. An object is abstracted to which hook names it exposes as
functions; a function is abstracted to the outcome of invoking it
(`trialThrows` = the call throws; otherwise it returns `trialResult`).
The adapter calls any function value at most one level deep. -/
inductive JSValue where
  | num (n : ℚ)
  | str (s : String)
  | boolean (b : Bool)
  | nullv
  | undefinedVal
  | func (trialThrows : Bool) (trialResult : JSValue)
  | obj (hooks : HookPresence)
deriving Repr, DecidableEq

/-- The value is a function (typeof value === "function"). -/
def isFunc : JSValue → Bool
  | .func _ _ => true
  | _ => false

/-- The value is a truthy object exposing at least one recognized hook
(the `value && typeof value === "object"` plus `.some(hook)` test). -/
def isObjWithHook : JSValue → Bool
  | .obj h => h.hasHook
  | _ => false

/-- tryCompileInstrumentation (replay.ts lines 35-83) on the outcome of
evaluating the sanitized source (`Except.error` models the evaluation
throwing). Returns the `ok` flag and the accepted value:
- a function whose trial invocation throws is accepted as-is (the catch at
  line 57 returns ok with no shape validation of its result);
- a function whose trial invocation returns an object with a hook is
  accepted; otherwise control falls through to the object check, which a
  function never passes, so the error branch is taken;
- a non-function value is accepted iff it is an object with a hook. -/
def tryCompileInstrumentation (ev : Except Unit JSValue) : Bool × Option JSValue :=
  match ev with
  | .error _ => (false, none)
  | .ok value =>
    match value with
    | .func trialThrows trialResult =>
      if trialThrows then (true, some value)
      else if isObjWithHook trialResult then (true, some value)
      else (false, none)
    | _ => if isObjWithHook value then (true, some value) else (false, none)

/-- normalizeToHooks (replay.ts lines 92-124). A function value is invoked:
if the call throws the error is logged and the function value falls through
the object check to the empty record; if it returns an object that object's
hook fields are taken (the source recursion bottoms out in one step because
it only recurses on objects); a non-object result also falls through to the
empty record. A plain object yields its hook fields; anything else yields no
hooks. -/
def normalizeToHooks : JSValue → HookPresence
  | .func trialThrows trialResult =>
    if trialThrows then noHooks
    else
      match trialResult with
      | .obj h => h
      | _ => noHooks
  | .obj h => h
  | _ => noHooks

/-!
URL model for Replay.replaceBaseUrl (replay.ts lines 415-431). The source
delegates to the WHATWG `URL` constructor and rebuilds
`newBase.origin + original.pathname + original.search + original.hash`.
Modelled: a structural split of `scheme://hostport pathname ?search #hash`
at the first occurrence of each delimiter. WHATWG normalization
(lowercasing, default-port elision, percent-encoding) is not modelled; it
does not affect the claims checked here.
-/

/-- Components of a parsed URL. `hostport` is the `host[:port]` blob that,
together with the scheme, forms `URL.origin`. -/
structure URLParts where
  scheme : String
  hostport : String
  pathname : String
  search : String
  hash : String
deriving Repr, DecidableEq

/-- Character allowed inside the host[:port] section. -/
def hostChar (c : Char) : Bool := c != '/' && c != '?' && c != '#'

/-- Character allowed inside the pathname section. -/
def pathChar (c : Char) : Bool := c != '?' && c != '#'

/-- Parse a URL character list into components: scheme up to the first
colon, which must start a literal "://"; nonempty host section up to the
first of / ? #; pathname up to the first of ? # (empty normalized to "/",
as the URL constructor does); search up to the first #; hash the rest. -/
def parseChars (cs : List Char) : Option URLParts :=
  let scheme := cs.takeWhile (fun c => c != ':')
  match cs.dropWhile (fun c => c != ':') with
  | ':' :: '/' :: '/' :: rest =>
    if scheme.isEmpty then none
    else
      let hostport := rest.takeWhile hostChar
      if hostport.isEmpty then none
      else
        let rest2 := rest.dropWhile hostChar
        let pathname := rest2.takeWhile pathChar
        let rest3 := rest2.dropWhile pathChar
        let search := rest3.takeWhile (fun c => c != '#')
        let hash := rest3.dropWhile (fun c => c != '#')
        some { scheme := ⟨scheme⟩
             , hostport := ⟨hostport⟩
             , pathname := if pathname.isEmpty then "/" else ⟨pathname⟩
             , search := ⟨search⟩
             , hash := ⟨hash⟩ }
  | _ => none

/-- Parse a URL string. -/
def parseURL (s : String) : Option URLParts := parseChars s.data

/-- URL.origin: scheme and host[:port]. -/
def URLParts.origin (u : URLParts) : String := u.scheme ++ "://" ++ u.hostport

/-- Serialization of a parsed URL (URL.href, up to normalization). -/
def URLParts.href (u : URLParts) : String :=
  u.origin ++ u.pathname ++ u.search ++ u.hash

/-- Replay.replaceBaseUrl (replay.ts lines 415-431): empty and about:blank
URLs are returned unchanged; if either URL fails to parse the original is
returned (the catch branch); otherwise the override's origin is glued to
the original's pathname, search and hash. -/
def replaceBaseUrl (originalUrl newBaseUrl : String) : String :=
  if originalUrl = "" || originalUrl = "about:blank" then originalUrl
  else
    match parseURL originalUrl, parseURL newBaseUrl with
    | some original, some newBase =>
      newBase.origin ++ original.pathname ++ original.search ++ original.hash
    | _, _ => originalUrl

/-!
Replay engine (Replay.run, replay.ts lines 182-402, and Replay.replayEvent,
lines 433-608), embedded as a pure interpreter producing a trace of the
calls made to the automation layer and to instrumentation hooks.
-/

/-- Payload of an InteractionEvent (the event-specific `data` fields that
Replay.replayEvent reads). Absent fields model `undefined`. -/
structure EventData where
  url : Option String := none
  navigationType : Option String := none
  x : Option ℚ := none
  y : Option ℚ := none
  value : Option String := none
  id : Option String := none
  name : Option String := none
  key : Option String := none
  width : Option ℚ := none
  height : Option ℚ := none
  conditions : Option NetworkConditions := none
deriving Repr, DecidableEq

/-- InteractionEvent from src/types.ts, restricted to the fields replay
reads. -/
structure InteractionEvent where
  timestamp : ℚ
  type : String
  data : EventData := {}
  pageId : Option String := none
deriving Repr, DecidableEq

/-- Calls made to the automation layer (Playwright), tagged with the target
tab id. -/
inductive AutoCall where
  | newPage (tab : ℕ)
  | closePage (tab : ℕ)
  | goto (tab : ℕ) (url : String)
  | reload (tab : ℕ) (url : String)
  | mouseMove (tab : ℕ) (x y : ℚ)
  | mouseClick (tab : ℕ) (x y : ℚ)
  | fill (tab : ℕ) (selector : String) (value : String)
  | press (tab : ℕ) (key : String)
  | scrollTo (tab : ℕ) (y : ℚ)
  | setViewportSize (tab : ℕ) (width height : ℚ)
  | emulateNetworkConditions (tab : ℕ) (conditions : NetworkConditions)
deriving Repr, DecidableEq

/-- The four instrumentation lifecycle hooks. -/
inductive HookKind where
  | setup
  | beforeEvent
  | afterEvent
  | complete
deriving Repr, DecidableEq

/-- Observable actions of a replay run. `dispatch i e` marks the invocation
of Replay.replayEvent for events[i]; `hookCall h i t` a hook invocation
against tab `t` (with `i` = current loop index, or the event count for
onComplete); `hookError` a hook exception caught and logged; `eventError`
the per-event catch at line 341; `navWarning`/`navErrorLog` the two
navigation-failure log lines; `sleep` the inter-event pacing wait. -/
inductive Action where
  | dispatch (i : ℕ) (e : InteractionEvent)
  | auto (i : ℕ) (c : AutoCall)
  | hookCall (h : HookKind) (i : ℕ) (tab : ℕ)
  | hookError (h : HookKind) (i : ℕ)
  | eventError (i : ℕ)
  | navWarning (i : ℕ) (url : String)
  | navErrorLog (i : ℕ) (url : String)
  | sleep (i : ℕ) (ms : ℤ)
deriving Repr, DecidableEq

/-- Loop index an action belongs to. -/
def Action.idx : Action → ℕ
  | .dispatch i _ => i
  | .auto i _ => i
  | .hookCall _ i _ => i
  | .hookError _ i => i
  | .eventError i => i
  | .navWarning i _ => i
  | .navErrorLog i _ => i
  | .sleep i _ => i

/-- Oracle for everything outside the replay engine: when the external stop
flag becomes observable, which hook invocations throw, which automation
calls throw, whether a navigation fails (and with which error message), and
what the onComplete hook returns. -/
structure Env where
  stopAt : Option ℕ := none
  hookThrows : HookKind → ℕ → Bool := fun _ _ => false
  autoThrows : ℕ → AutoCall → Bool := fun _ _ => false
  navFailMsg : ℕ → Option String := fun _ => none
  onCompleteResult : JSValue := .undefinedVal

/-- The `this.stopped` flag as observed at the top of loop iteration `i`:
true iff an external stop was requested at or before iteration `i`. -/
def stoppedAt (env : Env) (i : ℕ) : Bool :=
  match env.stopAt with
  | some k => decide (k ≤ i)
  | none => false

/-- Mutable state of Replay.run: the pageId → tab map, the `page` variable
(first tab that a dispatch returned), a fresh-tab counter, the set of closed
tabs, each tab's current URL, and the instrumentation fields
(`pendingHooksValue`, `pendingHooks`, `finalResults`). -/
structure RunState where
  pageMap : List (String × ℕ) := []
  page : Option ℕ := none
  nextTab : ℕ := 0
  closed : List ℕ := []
  urls : List (ℕ × String) := []
  hooksValue : JSValue := .obj noHooks
  hooks : HookPresence := noHooks
  finalResults : Option JSValue := none
deriving Repr, DecidableEq

/-- Current URL of a tab (`page.url()`); a fresh tab is at about:blank. -/
def getUrl (urls : List (ℕ × String)) (t : ℕ) : String :=
  ((urls.find? (fun p => p.1 == t)).map Prod.snd).getD "about:blank"

/-- Record a tab's current URL after a successful navigation. -/
def setUrl (urls : List (ℕ × String)) (t : ℕ) (u : String) : List (ℕ × String) :=
  if urls.any (fun p => p.1 == t) then
    urls.map (fun p => if p.1 == t then (t, u) else p)
  else urls ++ [(t, u)]

/-- Page resolution used for onBeforeEvent/onAfterEvent (replay.ts lines
292 and 330): `event.pageId ? pageMap.get(event.pageId) : page` — the
fallback is the `page` variable, not the first map entry. -/
def resolveHookPage (pageId : Option String) (pageMap : List (String × ℕ))
    (page : Option ℕ) : Option ℕ :=
  match pageId with
  | some pid => mapGet pageMap pid
  | none => page

/-- JavaScript Math.round: round half away from zero toward +infinity. -/
def jsRound (q : ℚ) : ℤ := ⌊q + 1 / 2⌋

/-- Result of one Replay.replayEvent invocation: next state, emitted
actions, the returned page (non-null only for newtab) and whether the
dispatch threw an exception that escapes to the per-event catch. -/
structure EvResult where
  state : RunState
  acts : List Action
  result : Option ℕ
  threw : Bool
deriving Repr

/-- An event dispatch that does nothing. -/
def evNoop (s : RunState) : EvResult :=
  { state := s, acts := [], result := none, threw := false }

/-- The "newtab" case (replay.ts lines 441-449): create a tab (the call can
throw, escaping to the per-event catch), register it under the event's
pageId, and return it. -/
def replayNewtab (env : Env) (i : ℕ) (e : InteractionEvent) (s : RunState) : EvResult :=
  let t := s.nextTab
  if env.autoThrows i (.newPage t) then
    { state := s, acts := [.auto i (.newPage t)], result := none, threw := true }
  else
    { state := { s with
        nextTab := t + 1
      , urls := setUrl s.urls t "about:blank"
      , pageMap := match e.pageId with
          | some pid => mapSet s.pageMap pid t
          | none => s.pageMap }
    , acts := [.auto i (.newPage t)], result := some t, threw := false }

/-- The "closetab" case (replay.ts lines 450-460): close the tab mapped
under the event's pageId, if any (close errors are swallowed by the inner
try, leaving the tab open), and delete the map entry. -/
def replayClosetab (env : Env) (i : ℕ) (e : InteractionEvent) (s : RunState) : EvResult :=
  match e.pageId with
  | some pid =>
    match mapGet s.pageMap pid with
    | some t =>
      { state := { s with
          closed := if env.autoThrows i (.closePage t) then s.closed else t :: s.closed
        , pageMap := mapDelete s.pageMap pid }
      , acts := [.auto i (.closePage t)], result := none, threw := false }
    | none => evNoop s
  | none => evNoop s

/-- The "navigation" case (replay.ts lines 461-513): apply the base-URL
override, skip empty/about:blank targets, reload when the recorded
navigation is a refresh of the current URL, navigate otherwise; a failure
is classified by isOfflineError and logged, never rethrown. -/
def replayNavigation (env : Env) (i : ℕ) (e : InteractionEvent)
    (uo : Option String) (s : RunState) : EvResult :=
  let p := resolveTab e.pageId s.pageMap
  let url : Option String :=
    match e.data.url with
    | some u =>
      if u != "" && u != "about:blank" && uo.isSome then
        some (replaceBaseUrl u (uo.getD ""))
      else some u
    | none => none
  match p, url with
  | some t, some u =>
    if u != "" && u != "about:blank" then
      let current := getUrl s.urls t
      if e.data.navigationType == some "refresh" || current != u then
        let call : AutoCall :=
          if e.data.navigationType == some "refresh" && current == u
          then .reload t u else .goto t u
        match env.navFailMsg i with
        | some msg =>
          { state := s
          , acts := [.auto i call,
              if isOfflineError msg then .navWarning i u else .navErrorLog i u]
          , result := none, threw := false }
        | none =>
          { state := { s with urls := setUrl s.urls t u }
          , acts := [.auto i call], result := none, threw := false }
      else evNoop s
    else evNoop s
  | _, _ => evNoop s

/-- The "click" case (replay.ts lines 514-524): move the pointer, then
click, at the recorded absolute coordinates; both calls are unprotected, so
a throw escapes to the per-event catch. -/
def replayClick (env : Env) (i : ℕ) (e : InteractionEvent) (s : RunState) : EvResult :=
  match resolveTab e.pageId s.pageMap, e.data.x, e.data.y with
  | some t, some x, some y =>
    if env.autoThrows i (.mouseMove t x y) then
      { state := s, acts := [.auto i (.mouseMove t x y)], result := none, threw := true }
    else if env.autoThrows i (.mouseClick t x y) then
      { state := s, acts := [.auto i (.mouseMove t x y), .auto i (.mouseClick t x y)]
      , result := none, threw := true }
    else
      { state := s, acts := [.auto i (.mouseMove t x y), .auto i (.mouseClick t x y)]
      , result := none, threw := false }
  | _, _, _ => evNoop s

/-- The "input" case (replay.ts lines 525-540): fill by id if present, else
by name attribute; each fill is wrapped in its own try and resolution
failure is tolerated silently. -/
def replayInput (i : ℕ) (e : InteractionEvent) (s : RunState) : EvResult :=
  match resolveTab e.pageId s.pageMap, e.data.value with
  | some t, some v =>
    let tid := e.data.id.getD ""
    let nm := e.data.name.getD ""
    if tid != "" then
      { state := s, acts := [.auto i (.fill t ("#" ++ tid) v)], result := none, threw := false }
    else if nm != "" then
      { state := s, acts := [.auto i (.fill t ("[name=\"" ++ nm ++ "\"]") v)]
      , result := none, threw := false }
    else evNoop s
  | _, _ => evNoop s

/-- The "keydown" case (replay.ts lines 542-550): press the recorded key;
the call is unprotected. -/
def replayKeydown (env : Env) (i : ℕ) (e : InteractionEvent) (s : RunState) : EvResult :=
  match resolveTab e.pageId s.pageMap, e.data.key with
  | some t, some k =>
    if env.autoThrows i (.press t k) then
      { state := s, acts := [.auto i (.press t k)], result := none, threw := true }
    else
      { state := s, acts := [.auto i (.press t k)], result := none, threw := false }
  | _, _ => evNoop s

/-- The "scroll" case (replay.ts lines 551-560): set the absolute scroll
position via script injection; the call is unprotected. -/
def replayScroll (env : Env) (i : ℕ) (e : InteractionEvent) (s : RunState) : EvResult :=
  match resolveTab e.pageId s.pageMap, e.data.y with
  | some t, some y =>
    if env.autoThrows i (.scrollTo t y) then
      { state := s, acts := [.auto i (.scrollTo t y)], result := none, threw := true }
    else
      { state := s, acts := [.auto i (.scrollTo t y)], result := none, threw := false }
  | _, _ => evNoop s

/-- The "viewport_resize" case (replay.ts lines 562-575): resize the
viewport; a failure is caught and logged inside the case, with no state
effect modelled. -/
def replayViewportResize (i : ℕ) (e : InteractionEvent) (s : RunState) : EvResult :=
  match resolveTab e.pageId s.pageMap, e.data.width, e.data.height with
  | some t, some w, some h =>
    { state := s, acts := [.auto i (.setViewportSize t w h)], result := none, threw := false }
  | _, _, _ => evNoop s

/-- The "network_conditions_change"/"network_conditions_initial" case
(replay.ts lines 576-604): apply the recorded conditions through a (lazily
created, not modelled) CDP session; failures are caught and logged inside
the case. -/
def replayNetworkConditions (i : ℕ) (e : InteractionEvent) (s : RunState) : EvResult :=
  match resolveTab e.pageId s.pageMap, e.data.conditions with
  | some t, some c =>
    { state := s, acts := [.auto i (.emulateNetworkConditions t c)], result := none, threw := false }
  | _, _ => evNoop s

/-- Replay.replayEvent (replay.ts lines 433-608): dispatch on the event
type; an unknown type is a no-op. -/
def replayEvent (env : Env) (i : ℕ) (e : InteractionEvent) (uo : Option String)
    (s : RunState) : EvResult :=
  if e.type = "newtab" then replayNewtab env i e s
  else if e.type = "closetab" then replayClosetab env i e s
  else if e.type = "navigation" then replayNavigation env i e uo s
  else if e.type = "click" then replayClick env i e s
  else if e.type = "input" then replayInput i e s
  else if e.type = "keydown" then replayKeydown env i e s
  else if e.type = "scroll" then replayScroll env i e s
  else if e.type = "viewport_resize" then replayViewportResize i e s
  else if e.type = "network_conditions_change" || e.type = "network_conditions_initial" then
    replayNetworkConditions i e s
  else evNoop s

/-- Event types Replay.replayEvent has a dispatch case for. -/
def handledEventTypes : List String :=
  [ "newtab", "closetab", "navigation", "click", "input", "keydown", "scroll"
  , "viewport_resize", "network_conditions_change", "network_conditions_initial" ]

/-- A hook invocation and, when it throws, the caught-and-logged error. -/
def hookActs (env : Env) (h : HookKind) (i : ℕ) (t : ℕ) : List Action :=
  if env.hookThrows h i then [.hookCall h i t, .hookError h i] else [.hookCall h i t]

/-- The pacing delay of replay.ts lines 286-287:
`Math.round((next.timestamp - event.timestamp) / Math.max(0.1, speed))`,
zero when there is no next event. -/
def delayOf (speed : ℚ) (e : InteractionEvent) (next : Option InteractionEvent) : ℤ :=
  jsRound ((match next with | some ne => ne.timestamp - e.timestamp | none => 0)
    / max (1 / 10) speed)

/-- The onBeforeEvent step (replay.ts lines 290-303): invoked only when the
`page` variable is set, the hook is loaded and a page resolves for the
event; a throw is caught and logged. -/
def beforeActsOf (env : Env) (i : ℕ) (e : InteractionEvent) (s : RunState) : List Action :=
  if s.page.isSome && s.hooks.onBeforeEvent then
    match resolveHookPage e.pageId s.pageMap s.page with
    | some t => hookActs env .beforeEvent i t
    | none => []
  else []

/-- The first-tab adoption step (replay.ts lines 307-327): when the dispatch
returned a page and none was adopted yet, adopt it, re-normalize the hooks
against the real page, and invoke setup (a throw is caught and logged). -/
def adoptFirstTab (env : Env) (i : ℕ) (r : EvResult) : RunState × List Action :=
  match r.result, r.state.page with
  | some t, none =>
    let sH := { r.state with page := some t, hooks := normalizeToHooks r.state.hooksValue }
    if sH.hooks.setup then (sH, hookActs env .setup i t) else (sH, [])
  | _, _ => (r.state, [])

/-- The onAfterEvent step (replay.ts lines 329-340): invoked when a page
resolves for the event and the hook is loaded; a throw is caught and
logged. -/
def afterActsOf (env : Env) (i : ℕ) (e : InteractionEvent) (sA : RunState) : List Action :=
  match resolveHookPage e.pageId sA.pageMap sA.page with
  | some t => if sA.hooks.onAfterEvent then hookActs env .afterEvent i t else []
  | none => []

/-- Everything after the dispatch inside the per-event try (replay.ts lines
289-343): if the dispatch threw, the catch logs the error and nothing else
runs; otherwise first-tab adoption and onAfterEvent follow. -/
def postOf (env : Env) (i : ℕ) (e : InteractionEvent) (r : EvResult) :
    RunState × List Action :=
  if r.threw then (r.state, [Action.eventError i])
  else
    let p := adoptFirstTab env i r
    (p.1, p.2 ++ afterActsOf env i e p.1)

/-- The pacing sleep of replay.ts lines 345-348: only when the delay is
positive and this is not the last event, clamped to 3000 ms. -/
def sleepActsOf (speed : ℚ) (i : ℕ) (e : InteractionEvent)
    (next : Option InteractionEvent) : List Action :=
  if decide (0 < delayOf speed e next) && next.isSome then
    [.sleep i (min (delayOf speed e next) 3000)]
  else []

/-- One iteration of the replay loop (replay.ts lines 283-348): onBeforeEvent,
dispatch, first-tab adoption with setup, onAfterEvent (all inside the
per-event try), then the pacing sleep. -/
def runStep (env : Env) (speed : ℚ) (uo : Option String) (i : ℕ)
    (e : InteractionEvent) (next : Option InteractionEvent) (s : RunState) :
    RunState × List Action :=
  let r := replayEvent env i e uo s
  let p := postOf env i e r
  (p.1, Action.dispatch i e :: (beforeActsOf env i e s ++ r.acts ++ p.2 ++ sleepActsOf speed i e next))

/-- The replay loop (replay.ts lines 277-349): iterate the events in order,
exiting early when the stop flag is observed at the top of an iteration. -/
def runLoop (env : Env) (speed : ℚ) (uo : Option String) :
    ℕ → List InteractionEvent → RunState → RunState × List Action
  | _, [], s => (s, [])
  | i, e :: rest, s =>
    if stoppedAt env i then (s, [])
    else
      let p1 := runStep env speed uo i e rest.head? s
      let p2 := runLoop env speed uo (i + 1) rest p1.1
      (p2.1, p1.2 ++ p2.2)

/-- The page handle passed to onComplete (replay.ts lines 352-358): the last
non-closed tab in map insertion order, else the `page` variable. -/
def pageForComplete (s : RunState) : Option ℕ :=
  (((s.pageMap.map Prod.snd).filter (fun t => !(s.closed.contains t))).getLast?).orElse
    (fun _ => s.page)

/-- The onComplete phase (replay.ts lines 351-368): if the hook is loaded
and a candidate page exists, invoke it once; its return value becomes
finalResults unless it throws (caught and logged). -/
def completeRun (env : Env) (n : ℕ) (s : RunState) : RunState × List Action :=
  if s.hooks.onComplete then
    match pageForComplete s with
    | some t =>
      if env.hookThrows .complete n then (s, [.hookCall .complete n t, .hookError .complete n])
      else ({ s with finalResults := some env.onCompleteResult }, [.hookCall .complete n t])
    | none => (s, [])
  else (s, [])

/-- Observable outcome of a replay run. -/
structure ReplayResult where
  trace : List Action
  finalResults : Option JSValue
  state : RunState
deriving Repr

/-- Replay.run (replay.ts lines 182-402). `hooksValue` is the value the
sanitized instrumentation source evaluated to (lines 251-262): when no code
is supplied, or compiling it throws, the caller passes the empty object the
source initializes `hooksValue` with. Hooks are pre-normalized against a
mock page, the event loop runs, and the onComplete phase finishes the run;
the browser-teardown cleanup block has no observable effect modelled. -/
def runReplay (env : Env) (speed : ℚ) (uo : Option String) (hooksValue : JSValue)
    (events : List InteractionEvent) : ReplayResult :=
  let s0 : RunState := { hooksValue := hooksValue, hooks := normalizeToHooks hooksValue }
  let p1 := runLoop env speed uo 0 events s0
  let p2 := completeRun env events.length p1.1
  { trace := p1.2 ++ p2.2, finalResults := p2.1.finalResults, state := p2.1 }

/-!
Trace observations used to state the claims.
-/

/-- The per-event dispatches of a trace, in order, with their loop index. -/
def dispatchEntries (tr : List Action) : List (ℕ × InteractionEvent) :=
  tr.filterMap (fun a => match a with | .dispatch i e => some (i, e) | _ => none)

/-- The automation calls a trace makes while processing event index `i`. -/
def autoEntriesAt (tr : List Action) (i : ℕ) : List AutoCall :=
  tr.filterMap (fun a =>
    match a with
    | .auto j c => if j = i then some c else none
    | _ => none)

/-- The pacing sleeps a trace performs after processing event index `i`. -/
def sleepEntriesAt (tr : List Action) (i : ℕ) : List ℤ :=
  tr.filterMap (fun a =>
    match a with
    | .sleep j ms => if j = i then some ms else none
    | _ => none)

/-- The onComplete invocations of a trace (loop index and target tab). -/
def completeCalls (tr : List Action) : List (ℕ × ℕ) :=
  tr.filterMap (fun a =>
    match a with
    | .hookCall .complete i t => some (i, t)
    | _ => none)

/-- The hook invocations of a trace. -/
def hookCallEntries (tr : List Action) : List (HookKind × ℕ × ℕ) :=
  tr.filterMap (fun a =>
    match a with
    | .hookCall h i t => some (h, i, t)
    | _ => none)

/-- The sleep the pacing law of the spec predicts after event `i` of a
recording replayed at speed `sp`: round of the timestamp delta divided by
`max 0.1 speed`, emitted only if positive and not after the last event,
clamped to 3000 ms. -/
def pacingSleep (sp : ℚ) (events : List InteractionEvent) (i : ℕ) : List ℤ :=
  match events.get? i, events.get? (i + 1) with
  | some e, some ne =>
    if 0 < delayOf sp e (some ne) then [min (delayOf sp e (some ne)) 3000] else []
  | _, _ => []

/-- Navigation-failure log lines are classified according to the failure
message the environment produced for that loop index. -/
def navClassOK (env : Env) : Action → Prop
  | .navWarning i _ => ∃ msg, env.navFailMsg i = some msg ∧ isOfflineError msg = true
  | .navErrorLog i _ => ∃ msg, env.navFailMsg i = some msg ∧ isOfflineError msg = false
  | _ => True

/-!
Spec-side formulas for the claims that the code falsifies. Each is a direct
formalization of the claim's wording, to be compared with the behaviour of
the definitions above.
-/

/-- Claim formula: onComplete is invoked exactly once at the end of every
run whose loaded instrumentation exposes an onComplete hook (the
"invoked exactly once" component of the claim; the claim implies it). -/
def ClaimC4 : Prop :=
  ∀ (env : Env) (sp : ℚ) (uo : Option String) (hv : JSValue)
    (events : List InteractionEvent),
    (normalizeToHooks hv).onComplete = true →
    (completeCalls (runReplay env sp uo hv events).trace).length = 1

/-- Claim formula: a NetworkConditions value matches a named preset if and
only if offline flag and throughputs are equal and the latency is within
plus-or-minus 10 ms of the preset's (inclusive tolerance, as the claim
words it). -/
def ClaimC7 : Prop :=
  ∀ c : NetworkConditions,
    (detectNetworkConditionsChange c).isSome = true ↔
      ∃ p ∈ getNetworkPresets,
        p.2.offline = c.offline ∧
        p.2.downloadThroughput = c.downloadThroughput ∧
        p.2.uploadThroughput = c.uploadThroughput ∧
        |p.2.latency - c.latency| ≤ 10

/-- Claim formula: a connectivity-class navigation failure is logged
non-fatally when the session is currently offline-emulated, and every
other failure — including a connectivity-class failure while not
offline-emulated — is logged as an error. -/
def ClaimC8 : Prop :=
  ∀ (msg : String) (offlineEmulated : Bool),
    (isOfflineError msg = true ∧ offlineEmulated = true →
      navFailureLogClass msg = .warning) ∧
    (¬(isOfflineError msg = true ∧ offlineEmulated = true) →
      navFailureLogClass msg = .error)

/-- Claim formula: the tab handle resolves to the tab mapped under the
event's pageId when that pageId is present in the tab map, and otherwise —
including a pageId absent from the map — to the first tracked tab. -/
def ClaimC9 : Prop :=
  ∀ (pageId : Option String) (m : List (String × ℕ)),
    resolveTab pageId m =
      (match pageId with
       | some pid => mapGet m pid
       | none => none).orElse (fun _ => (m.map Prod.snd).head?)

/-- Claim formula: evaluation yielding a function value always produces
ok = true with that function as the value, and ok = false only when
evaluation throws or the value is neither a function nor an object exposing
a recognized hook. -/
def ClaimC10 : Prop :=
  ∀ ev : Except Unit JSValue,
    (∀ th r, ev = .ok (.func th r) →
      tryCompileInstrumentation ev = (true, some (.func th r))) ∧
    ((tryCompileInstrumentation ev).1 = false →
      ev = .error () ∨ ∃ v, ev = .ok v ∧ isFunc v = false ∧ isObjWithHook v = false)

/-!
Structural lemmas about a single event dispatch.
-/

/-- Shape of the actions an event dispatch can emit: automation calls and
correctly classified navigation-failure log lines, all tagged with the
current loop index. -/
def evActShape (env : Env) (i : ℕ) (a : Action) : Prop :=
  (∃ c, a = .auto i c) ∨
  (∃ u msg, a = .navWarning i u ∧ env.navFailMsg i = some msg ∧ isOfflineError msg = true) ∨
  (∃ u msg, a = .navErrorLog i u ∧ env.navFailMsg i = some msg ∧ isOfflineError msg = false)

theorem evActShape_auto {env : Env} {i : ℕ} (c : AutoCall) : evActShape env i (.auto i c) :=
  Or.inl ⟨c, rfl⟩

theorem evActShape_newtab (env : Env) (i : ℕ) (e : InteractionEvent) (s : RunState) :
    ∀ a ∈ (replayNewtab env i e s).acts, evActShape env i a := by
  unfold replayNewtab
  repeat' (first | split | (dsimp only []; split))
  all_goals simp_all [evNoop, evActShape]

theorem evActShape_closetab (env : Env) (i : ℕ) (e : InteractionEvent) (s : RunState) :
    ∀ a ∈ (replayClosetab env i e s).acts, evActShape env i a := by
  unfold replayClosetab
  repeat' (first | split | (dsimp only []; split))
  all_goals simp_all [evNoop, evActShape]

theorem evActShape_navigation (env : Env) (i : ℕ) (e : InteractionEvent)
    (uo : Option String) (s : RunState) :
    ∀ a ∈ (replayNavigation env i e uo s).acts, evActShape env i a := by
  unfold replayNavigation
  repeat' (first | split | (dsimp only []; split))
  all_goals simp_all [evNoop, evActShape]

theorem evActShape_click (env : Env) (i : ℕ) (e : InteractionEvent) (s : RunState) :
    ∀ a ∈ (replayClick env i e s).acts, evActShape env i a := by
  unfold replayClick
  repeat' (first | split | (dsimp only []; split))
  all_goals simp_all [evNoop, evActShape]

theorem evActShape_input (i : ℕ) {env : Env} (e : InteractionEvent) (s : RunState) :
    ∀ a ∈ (replayInput i e s).acts, evActShape env i a := by
  unfold replayInput
  repeat' (first | split | (dsimp only []; split))
  all_goals simp_all [evNoop, evActShape]

theorem evActShape_keydown (env : Env) (i : ℕ) (e : InteractionEvent) (s : RunState) :
    ∀ a ∈ (replayKeydown env i e s).acts, evActShape env i a := by
  unfold replayKeydown
  repeat' (first | split | (dsimp only []; split))
  all_goals simp_all [evNoop, evActShape]

theorem evActShape_scroll (env : Env) (i : ℕ) (e : InteractionEvent) (s : RunState) :
    ∀ a ∈ (replayScroll env i e s).acts, evActShape env i a := by
  unfold replayScroll
  repeat' (first | split | (dsimp only []; split))
  all_goals simp_all [evNoop, evActShape]

theorem evActShape_viewport (i : ℕ) {env : Env} (e : InteractionEvent) (s : RunState) :
    ∀ a ∈ (replayViewportResize i e s).acts, evActShape env i a := by
  unfold replayViewportResize
  repeat' (first | split | (dsimp only []; split))
  all_goals simp_all [evNoop, evActShape]

theorem evActShape_network (i : ℕ) {env : Env} (e : InteractionEvent) (s : RunState) :
    ∀ a ∈ (replayNetworkConditions i e s).acts, evActShape env i a := by
  unfold replayNetworkConditions
  repeat' (first | split | (dsimp only []; split))
  all_goals simp_all [evNoop, evActShape]

/-- Every action an event dispatch emits is an automation call or a
classified navigation log, tagged with the current index. -/
theorem evActShape_replayEvent (env : Env) (i : ℕ) (e : InteractionEvent)
    (uo : Option String) (s : RunState) :
    ∀ a ∈ (replayEvent env i e uo s).acts, evActShape env i a := by
  unfold replayEvent
  split
  · exact evActShape_newtab env i e s
  · split
    · exact evActShape_closetab env i e s
    · split
      · exact evActShape_navigation env i e uo s
      · split
        · exact evActShape_click env i e s
        · split
          · exact evActShape_input i e s
          · split
            · exact evActShape_keydown env i e s
            · split
              · exact evActShape_scroll env i e s
              · split
                · exact evActShape_viewport i e s
                · split
                  · exact evActShape_network i e s
                  · intro a ha; simp [evNoop] at ha

/-- An unknown event type dispatches to the no-op default case. -/
theorem replayEvent_unknown (env : Env) (i : ℕ) (e : InteractionEvent)
    (uo : Option String) (s : RunState) (h : e.type ∉ handledEventTypes) :
    replayEvent env i e uo s = evNoop s := by
  have h1 : e.type ≠ "newtab" := by intro hc; exact h (by simp [handledEventTypes, hc])
  have h2 : e.type ≠ "closetab" := by intro hc; exact h (by simp [handledEventTypes, hc])
  have h3 : e.type ≠ "navigation" := by intro hc; exact h (by simp [handledEventTypes, hc])
  have h4 : e.type ≠ "click" := by intro hc; exact h (by simp [handledEventTypes, hc])
  have h5 : e.type ≠ "input" := by intro hc; exact h (by simp [handledEventTypes, hc])
  have h6 : e.type ≠ "keydown" := by intro hc; exact h (by simp [handledEventTypes, hc])
  have h7 : e.type ≠ "scroll" := by intro hc; exact h (by simp [handledEventTypes, hc])
  have h8 : e.type ≠ "viewport_resize" := by intro hc; exact h (by simp [handledEventTypes, hc])
  have h9 : e.type ≠ "network_conditions_change" := by
    intro hc; exact h (by simp [handledEventTypes, hc])
  have h10 : e.type ≠ "network_conditions_initial" := by
    intro hc; exact h (by simp [handledEventTypes, hc])
  simp [replayEvent, h1, h2, h3, h4, h5, h6, h7, h8, h9, h10]

/-!
State-preservation lemmas for a single event dispatch.
-/

theorem replayNewtab_state (env : Env) (i : ℕ) (e : InteractionEvent) (uo : Option String) (s : RunState) :
    ((replayNewtab env i e s).state.hooksValue = s.hooksValue ∧
     (replayNewtab env i e s).state.hooks = s.hooks ∧
     (replayNewtab env i e s).state.page = s.page ∧
     (replayNewtab env i e s).state.finalResults = s.finalResults) ∧
    ((replayNewtab env i e s).threw = true → (replayNewtab env i e s).state = s) ∧
    ((replayNewtab env i e s).result.isSome = true ∨
     (replayNewtab env i e s).state.pageMap = s.pageMap ∨
     ∃ pid, (replayNewtab env i e s).state.pageMap = mapDelete s.pageMap pid) := by
  unfold replayNewtab
  repeat' (first | split | (dsimp only []; split))
  all_goals first
    | exact ⟨by simp [evNoop], by simp [evNoop], Or.inr (Or.inr ⟨_, rfl⟩)⟩
    | simp_all [evNoop]

theorem replayClosetab_state (env : Env) (i : ℕ) (e : InteractionEvent) (uo : Option String) (s : RunState) :
    ((replayClosetab env i e s).state.hooksValue = s.hooksValue ∧
     (replayClosetab env i e s).state.hooks = s.hooks ∧
     (replayClosetab env i e s).state.page = s.page ∧
     (replayClosetab env i e s).state.finalResults = s.finalResults) ∧
    ((replayClosetab env i e s).threw = true → (replayClosetab env i e s).state = s) ∧
    ((replayClosetab env i e s).result.isSome = true ∨
     (replayClosetab env i e s).state.pageMap = s.pageMap ∨
     ∃ pid, (replayClosetab env i e s).state.pageMap = mapDelete s.pageMap pid) := by
  unfold replayClosetab
  repeat' (first | split | (dsimp only []; split))
  all_goals first
    | exact ⟨by simp [evNoop], by simp [evNoop], Or.inr (Or.inr ⟨_, rfl⟩)⟩
    | simp_all [evNoop]

theorem replayNavigation_state (env : Env) (i : ℕ) (e : InteractionEvent) (uo : Option String) (s : RunState) :
    ((replayNavigation env i e uo s).state.hooksValue = s.hooksValue ∧
     (replayNavigation env i e uo s).state.hooks = s.hooks ∧
     (replayNavigation env i e uo s).state.page = s.page ∧
     (replayNavigation env i e uo s).state.finalResults = s.finalResults) ∧
    ((replayNavigation env i e uo s).threw = true → (replayNavigation env i e uo s).state = s) ∧
    ((replayNavigation env i e uo s).result.isSome = true ∨
     (replayNavigation env i e uo s).state.pageMap = s.pageMap ∨
     ∃ pid, (replayNavigation env i e uo s).state.pageMap = mapDelete s.pageMap pid) := by
  unfold replayNavigation
  repeat' (first | split | (dsimp only []; split))
  all_goals first
    | exact ⟨by simp [evNoop], by simp [evNoop], Or.inr (Or.inr ⟨_, rfl⟩)⟩
    | simp_all [evNoop]

theorem replayClick_state (env : Env) (i : ℕ) (e : InteractionEvent) (uo : Option String) (s : RunState) :
    ((replayClick env i e s).state.hooksValue = s.hooksValue ∧
     (replayClick env i e s).state.hooks = s.hooks ∧
     (replayClick env i e s).state.page = s.page ∧
     (replayClick env i e s).state.finalResults = s.finalResults) ∧
    ((replayClick env i e s).threw = true → (replayClick env i e s).state = s) ∧
    ((replayClick env i e s).result.isSome = true ∨
     (replayClick env i e s).state.pageMap = s.pageMap ∨
     ∃ pid, (replayClick env i e s).state.pageMap = mapDelete s.pageMap pid) := by
  unfold replayClick
  repeat' (first | split | (dsimp only []; split))
  all_goals first
    | exact ⟨by simp [evNoop], by simp [evNoop], Or.inr (Or.inr ⟨_, rfl⟩)⟩
    | simp_all [evNoop]

theorem replayInput_state (env : Env) (i : ℕ) (e : InteractionEvent) (uo : Option String) (s : RunState) :
    ((replayInput i e s).state.hooksValue = s.hooksValue ∧
     (replayInput i e s).state.hooks = s.hooks ∧
     (replayInput i e s).state.page = s.page ∧
     (replayInput i e s).state.finalResults = s.finalResults) ∧
    ((replayInput i e s).threw = true → (replayInput i e s).state = s) ∧
    ((replayInput i e s).result.isSome = true ∨
     (replayInput i e s).state.pageMap = s.pageMap ∨
     ∃ pid, (replayInput i e s).state.pageMap = mapDelete s.pageMap pid) := by
  unfold replayInput
  repeat' (first | split | (dsimp only []; split))
  all_goals first
    | exact ⟨by simp [evNoop], by simp [evNoop], Or.inr (Or.inr ⟨_, rfl⟩)⟩
    | simp_all [evNoop]

theorem replayKeydown_state (env : Env) (i : ℕ) (e : InteractionEvent) (uo : Option String) (s : RunState) :
    ((replayKeydown env i e s).state.hooksValue = s.hooksValue ∧
     (replayKeydown env i e s).state.hooks = s.hooks ∧
     (replayKeydown env i e s).state.page = s.page ∧
     (replayKeydown env i e s).state.finalResults = s.finalResults) ∧
    ((replayKeydown env i e s).threw = true → (replayKeydown env i e s).state = s) ∧
    ((replayKeydown env i e s).result.isSome = true ∨
     (replayKeydown env i e s).state.pageMap = s.pageMap ∨
     ∃ pid, (replayKeydown env i e s).state.pageMap = mapDelete s.pageMap pid) := by
  unfold replayKeydown
  repeat' (first | split | (dsimp only []; split))
  all_goals first
    | exact ⟨by simp [evNoop], by simp [evNoop], Or.inr (Or.inr ⟨_, rfl⟩)⟩
    | simp_all [evNoop]

theorem replayScroll_state (env : Env) (i : ℕ) (e : InteractionEvent) (uo : Option String) (s : RunState) :
    ((replayScroll env i e s).state.hooksValue = s.hooksValue ∧
     (replayScroll env i e s).state.hooks = s.hooks ∧
     (replayScroll env i e s).state.page = s.page ∧
     (replayScroll env i e s).state.finalResults = s.finalResults) ∧
    ((replayScroll env i e s).threw = true → (replayScroll env i e s).state = s) ∧
    ((replayScroll env i e s).result.isSome = true ∨
     (replayScroll env i e s).state.pageMap = s.pageMap ∨
     ∃ pid, (replayScroll env i e s).state.pageMap = mapDelete s.pageMap pid) := by
  unfold replayScroll
  repeat' (first | split | (dsimp only []; split))
  all_goals first
    | exact ⟨by simp [evNoop], by simp [evNoop], Or.inr (Or.inr ⟨_, rfl⟩)⟩
    | simp_all [evNoop]

theorem replayViewportResize_state (env : Env) (i : ℕ) (e : InteractionEvent) (uo : Option String) (s : RunState) :
    ((replayViewportResize i e s).state.hooksValue = s.hooksValue ∧
     (replayViewportResize i e s).state.hooks = s.hooks ∧
     (replayViewportResize i e s).state.page = s.page ∧
     (replayViewportResize i e s).state.finalResults = s.finalResults) ∧
    ((replayViewportResize i e s).threw = true → (replayViewportResize i e s).state = s) ∧
    ((replayViewportResize i e s).result.isSome = true ∨
     (replayViewportResize i e s).state.pageMap = s.pageMap ∨
     ∃ pid, (replayViewportResize i e s).state.pageMap = mapDelete s.pageMap pid) := by
  unfold replayViewportResize
  repeat' (first | split | (dsimp only []; split))
  all_goals first
    | exact ⟨by simp [evNoop], by simp [evNoop], Or.inr (Or.inr ⟨_, rfl⟩)⟩
    | simp_all [evNoop]

theorem replayNetworkConditions_state (env : Env) (i : ℕ) (e : InteractionEvent) (uo : Option String) (s : RunState) :
    ((replayNetworkConditions i e s).state.hooksValue = s.hooksValue ∧
     (replayNetworkConditions i e s).state.hooks = s.hooks ∧
     (replayNetworkConditions i e s).state.page = s.page ∧
     (replayNetworkConditions i e s).state.finalResults = s.finalResults) ∧
    ((replayNetworkConditions i e s).threw = true → (replayNetworkConditions i e s).state = s) ∧
    ((replayNetworkConditions i e s).result.isSome = true ∨
     (replayNetworkConditions i e s).state.pageMap = s.pageMap ∨
     ∃ pid, (replayNetworkConditions i e s).state.pageMap = mapDelete s.pageMap pid) := by
  unfold replayNetworkConditions
  repeat' (first | split | (dsimp only []; split))
  all_goals first
    | exact ⟨by simp [evNoop], by simp [evNoop], Or.inr (Or.inr ⟨_, rfl⟩)⟩
    | simp_all [evNoop]

/-- Event dispatch never touches the instrumentation fields, the adopted
page or the final results, a throwing dispatch leaves the state untouched,
and a dispatch that returned no page left the tab map unchanged or merely
deleted an entry. -/
theorem replayEvent_state (env : Env) (i : ℕ) (e : InteractionEvent)
    (uo : Option String) (s : RunState) :
    ((replayEvent env i e uo s).state.hooksValue = s.hooksValue ∧
     (replayEvent env i e uo s).state.hooks = s.hooks ∧
     (replayEvent env i e uo s).state.page = s.page ∧
     (replayEvent env i e uo s).state.finalResults = s.finalResults) ∧
    ((replayEvent env i e uo s).threw = true → (replayEvent env i e uo s).state = s) ∧
    ((replayEvent env i e uo s).result.isSome = true ∨
     (replayEvent env i e uo s).state.pageMap = s.pageMap ∨
     ∃ pid, (replayEvent env i e uo s).state.pageMap = mapDelete s.pageMap pid) := by
  unfold replayEvent
  repeat' split
  all_goals first
    | exact replayNewtab_state env i e uo s
    | exact replayClosetab_state env i e uo s
    | exact replayNavigation_state env i e uo s
    | exact replayClick_state env i e uo s
    | exact replayInput_state env i e uo s
    | exact replayKeydown_state env i e uo s
    | exact replayScroll_state env i e uo s
    | exact replayViewportResize_state env i e uo s
    | exact replayNetworkConditions_state env i e uo s
    | exact ⟨by simp [evNoop], by simp [evNoop], Or.inr (Or.inl rfl)⟩

/-- Deleting from the empty map yields the empty map, so a nonempty
deletion result means the original map was nonempty. -/
theorem mapDelete_ne_nil {m : List (String × ℕ)} {k : String}
    (h : mapDelete m k ≠ []) : m ≠ [] := by
  intro hm; subst hm; exact h rfl

/-!
Shape lemmas for the remaining pieces of a loop iteration.
-/

theorem hookActs_shape (env : Env) (h : HookKind) (i t : ℕ) :
    ∀ a ∈ hookActs env h i t, a = .hookCall h i t ∨ a = .hookError h i := by
  unfold hookActs; split <;> simp

/-- Actions every loop iteration may emit besides its dispatch marker:
event actions, hook invocations of the three per-event kinds, caught hook
errors, the per-event error log, and the pacing sleep — all tagged with the
iteration index. -/
def stepActShape (env : Env) (i : ℕ) (a : Action) : Prop :=
  evActShape env i a ∨
  (∃ h t, (h = HookKind.setup ∨ h = HookKind.beforeEvent ∨ h = HookKind.afterEvent) ∧
    a = .hookCall h i t) ∨
  (∃ h, a = .hookError h i) ∨
  a = .eventError i ∨
  (∃ ms, a = .sleep i ms)

theorem beforeActs_shape (env : Env) (i : ℕ) (e : InteractionEvent) (s : RunState) :
    ∀ a ∈ beforeActsOf env i e s, stepActShape env i a := by
  intro a ha
  unfold beforeActsOf at ha
  repeat' split at ha
  all_goals first
    | exact absurd ha (List.not_mem_nil a)
    | (rcases hookActs_shape _ _ _ _ a ha with h | h
       · exact Or.inr (Or.inl ⟨_, _, Or.inr (Or.inl rfl), h⟩)
       · exact Or.inr (Or.inr (Or.inl ⟨_, h⟩)))

theorem adoptFirstTab_shape (env : Env) (i : ℕ) (r : EvResult) :
    ∀ a ∈ (adoptFirstTab env i r).2, stepActShape env i a := by
  intro a ha
  unfold adoptFirstTab at ha
  repeat' (first | split at ha | (dsimp only [] at ha; split at ha))
  all_goals first
    | exact absurd ha (List.not_mem_nil a)
    | (rcases hookActs_shape _ _ _ _ a ha with h | h
       · exact Or.inr (Or.inl ⟨_, _, Or.inl rfl, h⟩)
       · exact Or.inr (Or.inr (Or.inl ⟨_, h⟩)))

theorem afterActs_shape (env : Env) (i : ℕ) (e : InteractionEvent) (sA : RunState) :
    ∀ a ∈ afterActsOf env i e sA, stepActShape env i a := by
  intro a ha
  unfold afterActsOf at ha
  repeat' split at ha
  all_goals first
    | exact absurd ha (List.not_mem_nil a)
    | (rcases hookActs_shape _ _ _ _ a ha with h | h
       · exact Or.inr (Or.inl ⟨_, _, Or.inr (Or.inr rfl), h⟩)
       · exact Or.inr (Or.inr (Or.inl ⟨_, h⟩)))

theorem postOf_shape (env : Env) (i : ℕ) (e : InteractionEvent) (r : EvResult) :
    ∀ a ∈ (postOf env i e r).2, stepActShape env i a := by
  intro a ha
  unfold postOf at ha
  split at ha
  · simp at ha; subst ha; exact Or.inr (Or.inr (Or.inr (Or.inl rfl)))
  · simp only [] at ha
    rcases List.mem_append.mp ha with h | h
    · exact adoptFirstTab_shape env i r a h
    · exact afterActs_shape env i e _ a h

theorem sleepActs_shape (sp : ℚ) (i : ℕ) (e : InteractionEvent)
    (next : Option InteractionEvent) {env : Env} :
    ∀ a ∈ sleepActsOf sp i e next, stepActShape env i a := by
  intro a ha
  unfold sleepActsOf at ha
  split at ha
  · simp at ha; subst ha; exact Or.inr (Or.inr (Or.inr (Or.inr ⟨_, rfl⟩)))
  · exact absurd ha (List.not_mem_nil a)

/-- The non-dispatch part of one loop iteration's actions. -/
def stepTail (env : Env) (sp : ℚ) (uo : Option String) (i : ℕ)
    (e : InteractionEvent) (next : Option InteractionEvent) (s : RunState) : List Action :=
  beforeActsOf env i e s ++ (replayEvent env i e uo s).acts ++
    (postOf env i e (replayEvent env i e uo s)).2 ++ sleepActsOf sp i e next

theorem runStep_snd (env : Env) (sp : ℚ) (uo : Option String) (i : ℕ)
    (e : InteractionEvent) (next : Option InteractionEvent) (s : RunState) :
    (runStep env sp uo i e next s).2 = .dispatch i e :: stepTail env sp uo i e next s := rfl

theorem runStep_fst (env : Env) (sp : ℚ) (uo : Option String) (i : ℕ)
    (e : InteractionEvent) (next : Option InteractionEvent) (s : RunState) :
    (runStep env sp uo i e next s).1 = (postOf env i e (replayEvent env i e uo s)).1 := rfl

theorem stepTail_shape (env : Env) (sp : ℚ) (uo : Option String) (i : ℕ)
    (e : InteractionEvent) (next : Option InteractionEvent) (s : RunState) :
    ∀ a ∈ stepTail env sp uo i e next s, stepActShape env i a := by
  intro a ha
  unfold stepTail at ha
  rcases List.mem_append.mp ha with h | h
  · rcases List.mem_append.mp h with h2 | h2
    · rcases List.mem_append.mp h2 with h3 | h3
      · exact beforeActs_shape env i e s a h3
      · exact Or.inl (evActShape_replayEvent env i e uo s a h3)
    · exact postOf_shape env i e _ a h2
  · exact sleepActs_shape sp i e next a h

/-- Every action of one loop iteration carries that iteration's index. -/
theorem stepActShape_idx {env : Env} {i : ℕ} {a : Action}
    (h : stepActShape env i a) : a.idx = i := by
  rcases h with h | h | h | h | h
  · rcases h with ⟨c, rfl⟩ | ⟨u, m, rfl, _⟩ | ⟨u, m, rfl, _⟩ <;> rfl
  · rcases h with ⟨hk, t, _, rfl⟩; rfl
  · rcases h with ⟨hk, rfl⟩; rfl
  · subst h; rfl
  · rcases h with ⟨ms, rfl⟩; rfl

/-- Navigation-failure logs of one iteration are classified according to
the environment's failure message. -/
theorem stepActShape_navClass {env : Env} {i : ℕ} {a : Action}
    (h : stepActShape env i a) : navClassOK env a := by
  rcases h with h | h | h | h | h
  · rcases h with ⟨c, rfl⟩ | ⟨u, m, rfl, hm, ho⟩ | ⟨u, m, rfl, hm, ho⟩
    · trivial
    · exact ⟨m, hm, ho⟩
    · exact ⟨m, hm, ho⟩
  · rcases h with ⟨hk, t, _, rfl⟩; trivial
  · rcases h with ⟨hk, rfl⟩; trivial
  · subst h; trivial
  · rcases h with ⟨ms, rfl⟩; trivial

/-- No iteration action is a dispatch marker except the head. -/
theorem stepActShape_not_dispatch {env : Env} {i j : ℕ} {a : Action}
    (h : stepActShape env i a) : ∀ e, a ≠ .dispatch j e := by
  intro e he
  subst he
  rcases h with h | h | h | h | h
  · rcases h with ⟨c, hc⟩ | ⟨u, m, hc, _⟩ | ⟨u, m, hc, _⟩ <;> cases hc
  · rcases h with ⟨hk, t, _, hc⟩; cases hc
  · rcases h with ⟨hk, hc⟩; cases hc
  · cases h
  · rcases h with ⟨ms, hc⟩; cases hc

/-- No iteration action is an onComplete invocation. -/
theorem stepActShape_not_complete {env : Env} {i j t : ℕ} {a : Action}
    (h : stepActShape env i a) : a ≠ .hookCall .complete j t := by
  intro he
  subst he
  rcases h with h | h | h | h | h
  · rcases h with ⟨c, hc⟩ | ⟨u, m, hc, _⟩ | ⟨u, m, hc, _⟩ <;> cases hc
  · rcases h with ⟨hk, t2, hk3, hc⟩
    rcases hk3 with h3 | h3 | h3 <;> (cases hc; cases h3)
  · rcases h with ⟨hk, hc⟩; cases hc
  · cases h
  · rcases h with ⟨ms, hc⟩; cases hc

/-!
Run-state invariant: the instrumentation fields are determined by the
evaluated instrumentation value, and a nonempty tab map implies a page has
been adopted (the map only ever gains entries in the newtab case, whose
returned page is adopted in the same iteration).
-/

/-- Invariant maintained by every loop iteration. -/
def StateInv (hv : JSValue) (s : RunState) : Prop :=
  s.hooksValue = hv ∧ s.hooks = normalizeToHooks hv ∧
    (s.pageMap ≠ [] → s.page.isSome = true)

theorem stateInv_runStep {hv : JSValue} (env : Env) (sp : ℚ) (uo : Option String)
    (i : ℕ) (e : InteractionEvent) (next : Option InteractionEvent) (s : RunState)
    (h : StateInv hv s) : StateInv hv (runStep env sp uo i e next s).1 := by
  obtain ⟨hval, hhooks, hmap⟩ := h
  obtain ⟨⟨pv, ph, pp, pf⟩, ht, hm⟩ := replayEvent_state env i e uo s
  rw [runStep_fst]
  unfold postOf
  split
  · next hthrew => rw [ht hthrew]; exact ⟨hval, hhooks, hmap⟩
  · dsimp only []
    unfold adoptFirstTab
    rcases hres : (replayEvent env i e uo s).result with _ | t
    · rcases hpage : (replayEvent env i e uo s).state.page with _ | pt
      · simp only [hres, hpage]
        refine ⟨pv.trans hval, ph.trans hhooks, ?_⟩
        intro hne
        rcases hm with hm | hm | ⟨pid, hmd⟩
        · rw [hres] at hm; simp at hm
        · rw [hm] at hne
          have hps := hmap hne
          rw [← pp, hpage] at hps; simp at hps
        · rw [hmd] at hne
          have hps := hmap (mapDelete_ne_nil hne)
          rw [← pp, hpage] at hps; simp at hps
      · simp only [hres, hpage]
        exact ⟨pv.trans hval, ph.trans hhooks, fun _ => by simp [hpage]⟩
    · rcases hpage : (replayEvent env i e uo s).state.page with _ | pt
      · simp only [hres, hpage]
        split <;>
          exact ⟨by simpa using pv.trans hval, by simp [pv.trans hval], fun _ => by simp⟩
      · simp only [hres, hpage]
        exact ⟨pv.trans hval, ph.trans hhooks, fun _ => by simp [hpage]⟩

/-- Once a page has been adopted it stays adopted, with the same handle. -/
theorem runStep_page_mono (env : Env) (sp : ℚ) (uo : Option String) (i : ℕ)
    (e : InteractionEvent) (next : Option InteractionEvent) (s : RunState) (t : ℕ)
    (h : s.page = some t) : (runStep env sp uo i e next s).1.page = some t := by
  obtain ⟨⟨pv, ph, pp, pf⟩, ht, hm⟩ := replayEvent_state env i e uo s
  rw [runStep_fst]
  unfold postOf
  split
  · next hthrew => rw [ht hthrew]; exact h
  · dsimp only []
    unfold adoptFirstTab
    rcases hres : (replayEvent env i e uo s).result with _ | t2 <;>
      rcases hpage : (replayEvent env i e uo s).state.page with _ | pt
    all_goals first
      | (rw [pp]; exact h)
      | (simp only [hres, hpage]; rw [pp]; exact h)
      | exact hpage.symm.trans (pp.trans h)
      | exact absurd ((pp.trans h).symm.trans hpage) (Option.some_ne_none t)

/-- A loop iteration never touches finalResults. -/
theorem runStep_finalResults (env : Env) (sp : ℚ) (uo : Option String) (i : ℕ)
    (e : InteractionEvent) (next : Option InteractionEvent) (s : RunState) :
    (runStep env sp uo i e next s).1.finalResults = s.finalResults := by
  obtain ⟨⟨pv, ph, pp, pf⟩, ht, hm⟩ := replayEvent_state env i e uo s
  rw [runStep_fst]
  unfold postOf
  split
  · next hthrew => rw [ht hthrew]
  · dsimp only []
    unfold adoptFirstTab
    rcases hres : (replayEvent env i e uo s).result with _ | t2 <;>
      rcases hpage : (replayEvent env i e uo s).state.page with _ | pt
    all_goals first
      | exact pf
      | (split <;> simpa using pf)
      | (simp only [hres, hpage]; exact pf)
      | (simp only [hres, hpage]; split <;> simpa using pf)

/-!
Exact forms of the actions each iteration component can emit, and the
resulting trace-extraction equations for one loop iteration.
-/

theorem beforeActs_forms (env : Env) (i : ℕ) (e : InteractionEvent) (s : RunState) :
    ∀ a ∈ beforeActsOf env i e s,
      (∃ t, a = .hookCall .beforeEvent i t) ∨ a = .hookError .beforeEvent i := by
  intro a ha
  unfold beforeActsOf at ha
  repeat' split at ha
  all_goals first
    | exact absurd ha (List.not_mem_nil a)
    | (rcases hookActs_shape _ _ _ _ a ha with h | h
       · exact Or.inl ⟨_, h⟩
       · exact Or.inr h)

theorem adoptFirstTab_forms (env : Env) (i : ℕ) (r : EvResult) :
    ∀ a ∈ (adoptFirstTab env i r).2,
      (∃ t, a = .hookCall .setup i t) ∨ a = .hookError .setup i := by
  intro a ha
  unfold adoptFirstTab at ha
  repeat' (first | split at ha | (dsimp only [] at ha; split at ha))
  all_goals first
    | exact absurd ha (List.not_mem_nil a)
    | (rcases hookActs_shape _ _ _ _ a ha with h | h
       · exact Or.inl ⟨_, h⟩
       · exact Or.inr h)

theorem afterActs_forms (env : Env) (i : ℕ) (e : InteractionEvent) (sA : RunState) :
    ∀ a ∈ afterActsOf env i e sA,
      (∃ t, a = .hookCall .afterEvent i t) ∨ a = .hookError .afterEvent i := by
  intro a ha
  unfold afterActsOf at ha
  repeat' split at ha
  all_goals first
    | exact absurd ha (List.not_mem_nil a)
    | (rcases hookActs_shape _ _ _ _ a ha with h | h
       · exact Or.inl ⟨_, h⟩
       · exact Or.inr h)

theorem postOf_forms (env : Env) (i : ℕ) (e : InteractionEvent) (r : EvResult) :
    ∀ a ∈ (postOf env i e r).2,
      a = .eventError i ∨
      (∃ h t, (h = HookKind.setup ∨ h = HookKind.afterEvent) ∧ a = .hookCall h i t) ∨
      (∃ h, (h = HookKind.setup ∨ h = HookKind.afterEvent) ∧ a = .hookError h i) := by
  intro a ha
  unfold postOf at ha
  split at ha
  · simp at ha; subst ha; exact Or.inl rfl
  · simp only [] at ha
    rcases List.mem_append.mp ha with h | h
    · rcases adoptFirstTab_forms env i r a h with ⟨t, rfl⟩ | rfl
      · exact Or.inr (Or.inl ⟨_, _, Or.inl rfl, rfl⟩)
      · exact Or.inr (Or.inr ⟨_, Or.inl rfl, rfl⟩)
    · rcases afterActs_forms env i e _ a h with ⟨t, rfl⟩ | rfl
      · exact Or.inr (Or.inl ⟨_, _, Or.inr rfl, rfl⟩)
      · exact Or.inr (Or.inr ⟨_, Or.inr rfl, rfl⟩)

theorem sleepActs_forms (sp : ℚ) (i : ℕ) (e : InteractionEvent)
    (next : Option InteractionEvent) :
    ∀ a ∈ sleepActsOf sp i e next, ∃ ms, a = .sleep i ms := by
  intro a ha
  unfold sleepActsOf at ha
  split at ha
  · simp at ha; subst ha; exact ⟨_, rfl⟩
  · exact absurd ha (List.not_mem_nil a)

/-!
Generic emptiness lemmas for the trace extractors.
-/

theorem sleepEntriesAt_eq_nil {l : List Action} {j : ℕ}
    (h : ∀ a ∈ l, ∀ ms, a ≠ Action.sleep j ms) : sleepEntriesAt l j = [] := by
  rw [sleepEntriesAt, List.filterMap_eq_nil_iff]
  intro a ha
  cases a
  case sleep j2 ms =>
    by_cases hj : j2 = j
    · subst hj; exact absurd rfl (h _ ha ms)
    · simp [hj]
  all_goals rfl

theorem autoEntriesAt_eq_nil {l : List Action} {j : ℕ}
    (h : ∀ a ∈ l, ∀ c, a ≠ Action.auto j c) : autoEntriesAt l j = [] := by
  rw [autoEntriesAt, List.filterMap_eq_nil_iff]
  intro a ha
  cases a
  case auto j2 c =>
    by_cases hj : j2 = j
    · subst hj; exact absurd rfl (h _ ha c)
    · simp [hj]
  all_goals rfl

theorem completeCalls_eq_nil {l : List Action}
    (h : ∀ a ∈ l, ∀ j t, a ≠ Action.hookCall .complete j t) : completeCalls l = [] := by
  rw [completeCalls, List.filterMap_eq_nil_iff]
  intro a ha
  cases a
  case hookCall hk j t => cases hk <;> first | rfl | exact absurd rfl (h _ ha j t)
  all_goals rfl

theorem hookCallEntries_eq_nil {l : List Action}
    (h : ∀ a ∈ l, ∀ hk j t, a ≠ Action.hookCall hk j t) : hookCallEntries l = [] := by
  rw [hookCallEntries, List.filterMap_eq_nil_iff]
  intro a ha
  cases a
  case hookCall hk j t => exact absurd rfl (h _ ha hk j t)
  all_goals rfl

theorem dispatchEntries_eq_nil {l : List Action}
    (h : ∀ a ∈ l, ∀ j e, a ≠ Action.dispatch j e) : dispatchEntries l = [] := by
  rw [dispatchEntries, List.filterMap_eq_nil_iff]
  intro a ha
  cases a
  case dispatch j e2 => exact absurd rfl (h _ ha j e2)
  all_goals rfl

theorem dispatchEntries_append (l l' : List Action) :
    dispatchEntries (l ++ l') = dispatchEntries l ++ dispatchEntries l' :=
  List.filterMap_append l l' _

theorem autoEntriesAt_append (l l' : List Action) (j : ℕ) :
    autoEntriesAt (l ++ l') j = autoEntriesAt l j ++ autoEntriesAt l' j :=
  List.filterMap_append l l' _

theorem sleepEntriesAt_append (l l' : List Action) (j : ℕ) :
    sleepEntriesAt (l ++ l') j = sleepEntriesAt l j ++ sleepEntriesAt l' j :=
  List.filterMap_append l l' _

theorem completeCalls_append (l l' : List Action) :
    completeCalls (l ++ l') = completeCalls l ++ completeCalls l' :=
  List.filterMap_append l l' _

theorem hookCallEntries_append (l l' : List Action) :
    hookCallEntries (l ++ l') = hookCallEntries l ++ hookCallEntries l' :=
  List.filterMap_append l l' _

/-!
Trace-extraction equations for a single loop iteration.
-/

/-- Every action of one loop iteration carries that iteration's index. -/
theorem runStep_idx (env : Env) (sp : ℚ) (uo : Option String) (i : ℕ)
    (e : InteractionEvent) (next : Option InteractionEvent) (s : RunState) :
    ∀ a ∈ (runStep env sp uo i e next s).2, a.idx = i := by
  rw [runStep_snd]
  intro a ha
  rcases List.mem_cons.mp ha with rfl | h
  · rfl
  · exact stepActShape_idx (stepTail_shape env sp uo i e next s a h)

/-- One iteration dispatches exactly its own event. -/
theorem dispatchEntries_runStep (env : Env) (sp : ℚ) (uo : Option String) (i : ℕ)
    (e : InteractionEvent) (next : Option InteractionEvent) (s : RunState) :
    dispatchEntries (runStep env sp uo i e next s).2 = [(i, e)] := by
  rw [runStep_snd]
  have htail : dispatchEntries (stepTail env sp uo i e next s) = [] :=
    dispatchEntries_eq_nil (fun a ha j e2 he => by
      subst he
      exact stepActShape_not_dispatch (stepTail_shape env sp uo i e next s _ ha) e2 rfl)
  rw [dispatchEntries, List.filterMap_cons] at *
  simpa using htail

/-- One iteration makes no onComplete invocation. -/
theorem completeCalls_runStep (env : Env) (sp : ℚ) (uo : Option String) (i : ℕ)
    (e : InteractionEvent) (next : Option InteractionEvent) (s : RunState) :
    completeCalls (runStep env sp uo i e next s).2 = [] := by
  rw [runStep_snd]
  refine completeCalls_eq_nil ?_
  intro a ha j t he
  subst he
  rcases List.mem_cons.mp ha with hc | h
  · cases hc
  · exact stepActShape_not_complete (stepTail_shape env sp uo i e next s _ h) rfl

/-- The pacing sleep of one iteration, extracted from its trace. -/
theorem sleepEntriesAt_runStep (env : Env) (sp : ℚ) (uo : Option String) (i : ℕ)
    (e : InteractionEvent) (next : Option InteractionEvent) (s : RunState) :
    sleepEntriesAt (runStep env sp uo i e next s).2 i =
      if (decide (0 < delayOf sp e next) && next.isSome) = true
      then [min (delayOf sp e next) 3000] else [] := by
  rw [runStep_snd]
  have h1 : sleepEntriesAt (beforeActsOf env i e s) i = [] :=
    sleepEntriesAt_eq_nil (fun a ha ms he => by
      subst he; rcases beforeActs_forms env i e s _ ha with ⟨t, hc⟩ | hc <;> cases hc)
  have h2 : sleepEntriesAt (replayEvent env i e uo s).acts i = [] :=
    sleepEntriesAt_eq_nil (fun a ha ms he => by
      subst he
      rcases evActShape_replayEvent env i e uo s _ ha with ⟨c, hc⟩ | ⟨u, m, hc, _⟩ | ⟨u, m, hc, _⟩ <;>
        cases hc)
  have h3 : sleepEntriesAt (postOf env i e (replayEvent env i e uo s)).2 i = [] :=
    sleepEntriesAt_eq_nil (fun a ha ms he => by
      subst he
      rcases postOf_forms env i e _ _ ha with hc | ⟨hk, t, _, hc⟩ | ⟨hk, _, hc⟩ <;> cases hc)
  have h4 : sleepEntriesAt (sleepActsOf sp i e next) i =
      if (decide (0 < delayOf sp e next) && next.isSome) = true
      then [min (delayOf sp e next) 3000] else [] := by
    unfold sleepActsOf
    split
    · simp [sleepEntriesAt]
    · rfl
  show sleepEntriesAt
    (Action.dispatch i e :: (beforeActsOf env i e s ++ (replayEvent env i e uo s).acts ++
      (postOf env i e (replayEvent env i e uo s)).2 ++ sleepActsOf sp i e next)) i = _
  rw [show (Action.dispatch i e :: (beforeActsOf env i e s ++ (replayEvent env i e uo s).acts ++
      (postOf env i e (replayEvent env i e uo s)).2 ++ sleepActsOf sp i e next)) =
      ([Action.dispatch i e] ++ (beforeActsOf env i e s ++ (replayEvent env i e uo s).acts ++
      (postOf env i e (replayEvent env i e uo s)).2 ++ sleepActsOf sp i e next)) from rfl]
  rw [sleepEntriesAt_append, sleepEntriesAt_append, sleepEntriesAt_append,
    sleepEntriesAt_append, h1, h2, h3, h4]
  rfl

/-- An iteration over an event of unhandled type makes no automation call. -/
theorem autoEntriesAt_runStep_unknown (env : Env) (sp : ℚ) (uo : Option String)
    (i : ℕ) (e : InteractionEvent) (next : Option InteractionEvent) (s : RunState)
    (h : e.type ∉ handledEventTypes) :
    autoEntriesAt (runStep env sp uo i e next s).2 i = [] := by
  rw [runStep_snd]
  refine autoEntriesAt_eq_nil ?_
  intro a ha c he
  subst he
  rcases List.mem_cons.mp ha with hc | hmem
  · cases hc
  · have := stepTail_shape env sp uo i e next s _ hmem
    unfold stepTail at hmem
    rcases List.mem_append.mp hmem with h2 | h2
    · rcases List.mem_append.mp h2 with h3 | h3
      · rcases List.mem_append.mp h3 with h4 | h4
        · rcases beforeActs_forms env i e s _ h4 with ⟨t, hc⟩ | hc <;> cases hc
        · rw [replayEvent_unknown env i e uo s h] at h4
          exact absurd h4 (List.not_mem_nil _)
      · rcases postOf_forms env i e _ _ h3 with hc | ⟨hk, t, _, hc⟩ | ⟨hk, _, hc⟩ <;> cases hc
    · rcases sleepActs_forms sp i e next _ h2 with ⟨ms, hc⟩; cases hc

/-- Nothing is emitted by the onBeforeEvent step when the hook is absent. -/
theorem beforeActsOf_noHook {env : Env} {i : ℕ} {e : InteractionEvent} {s : RunState}
    (h : s.hooks.onBeforeEvent = false) : beforeActsOf env i e s = [] := by
  unfold beforeActsOf
  simp [h]

/-- Nothing is emitted by the onAfterEvent step when the hook is absent. -/
theorem afterActsOf_noHook {env : Env} {i : ℕ} {e : InteractionEvent} {sA : RunState}
    (h : sA.hooks.onAfterEvent = false) : afterActsOf env i e sA = [] := by
  unfold afterActsOf
  split
  · rw [h]; simp
  · rfl

/-- First-tab adoption leaves the hooks unchanged or re-normalizes them
from the stored instrumentation value. -/
theorem adoptFirstTab_hooks (env : Env) (i : ℕ) (r : EvResult) :
    (adoptFirstTab env i r).1.hooks = r.state.hooks ∨
    (adoptFirstTab env i r).1.hooks = normalizeToHooks r.state.hooksValue := by
  unfold adoptFirstTab
  rcases hres : r.result with _ | t <;> rcases hpage : r.state.page with _ | pt
  all_goals first
    | exact Or.inl rfl
    | (simp only [hres, hpage]; exact Or.inl rfl)
    | (simp only [hres, hpage]; split <;> exact Or.inr rfl)

/-- First-tab adoption emits nothing when normalization yields no hooks. -/
theorem adoptFirstTab_noSetup {env : Env} {i : ℕ} {r : EvResult}
    (h : normalizeToHooks r.state.hooksValue = noHooks) : (adoptFirstTab env i r).2 = [] := by
  unfold adoptFirstTab
  rcases hres : r.result with _ | t <;> rcases hpage : r.state.page with _ | pt
  all_goals first
    | rfl
    | (simp only [hres, hpage]; rfl)
    | (simp only [hres, hpage]; rw [h]; simp [noHooks])
    | (simp only [hres, hpage]; simp only [h]; simp [noHooks])

/-- With hookless instrumentation an iteration makes no hook invocation. -/
theorem hookCallEntries_runStep {hv : JSValue} (env : Env) (sp : ℚ) (uo : Option String)
    (i : ℕ) (e : InteractionEvent) (next : Option InteractionEvent) (s : RunState)
    (hinv : StateInv hv s) (hn : normalizeToHooks hv = noHooks) :
    hookCallEntries (runStep env sp uo i e next s).2 = [] := by
  obtain ⟨hval, hhooks, _⟩ := hinv
  have hsh : s.hooks = noHooks := by rw [hhooks, hn]
  obtain ⟨⟨pv2, ph2, _, _⟩, _, _⟩ := replayEvent_state env i e uo s
  have hb : beforeActsOf env i e s = [] := beforeActsOf_noHook (by rw [hsh]; rfl)
  have hev : hookCallEntries (replayEvent env i e uo s).acts = [] :=
    hookCallEntries_eq_nil (fun a ha hk j t he => by
      subst he
      rcases evActShape_replayEvent env i e uo s _ ha with ⟨c, hc⟩ | ⟨u, m, hc, _⟩ | ⟨u, m, hc, _⟩ <;>
        cases hc)
  have hadopt : (adoptFirstTab env i (replayEvent env i e uo s)).2 = [] :=
    adoptFirstTab_noSetup (by rw [pv2, hval, hn])
  have hA : (adoptFirstTab env i (replayEvent env i e uo s)).1.hooks = noHooks := by
    rcases adoptFirstTab_hooks env i (replayEvent env i e uo s) with h | h
    · rw [h, ph2, hsh]
    · rw [h, pv2, hval, hn]
  have haft : afterActsOf env i e (adoptFirstTab env i (replayEvent env i e uo s)).1 = [] :=
    afterActsOf_noHook (by rw [hA]; rfl)
  have hpost : hookCallEntries (postOf env i e (replayEvent env i e uo s)).2 = [] := by
    unfold postOf
    split
    · rfl
    · dsimp only []
      rw [hookCallEntries_append, hadopt, haft]
      rfl
  have hsleep : hookCallEntries (sleepActsOf sp i e next) = [] :=
    hookCallEntries_eq_nil (fun a ha hk j t he => by
      subst he
      rcases sleepActs_forms sp i e next _ ha with ⟨ms, hc⟩; cases hc)
  rw [runStep_snd]
  show hookCallEntries (beforeActsOf env i e s ++ (replayEvent env i e uo s).acts ++
      (postOf env i e (replayEvent env i e uo s)).2 ++ sleepActsOf sp i e next) = []
  rw [hookCallEntries_append, hookCallEntries_append, hookCallEntries_append,
    hb, hev, hpost, hsleep]
  rfl

/-!
Loop-level lemmas, by induction over the event list.
-/

theorem runLoop_nil (env : Env) (sp : ℚ) (uo : Option String) (i : ℕ) (s : RunState) :
    runLoop env sp uo i [] s = (s, []) := rfl

theorem runLoop_cons_stopped {env : Env} {sp : ℚ} {uo : Option String} {i : ℕ}
    {e : InteractionEvent} {rest : List InteractionEvent} {s : RunState}
    (h : stoppedAt env i = true) : runLoop env sp uo i (e :: rest) s = (s, []) := by
  unfold runLoop; rw [if_pos h]

theorem runLoop_cons_go {env : Env} {sp : ℚ} {uo : Option String} {i : ℕ}
    {e : InteractionEvent} {rest : List InteractionEvent} {s : RunState}
    (h : stoppedAt env i = false) :
    runLoop env sp uo i (e :: rest) s =
      ((runLoop env sp uo (i + 1) rest (runStep env sp uo i e rest.head? s).1).1,
       (runStep env sp uo i e rest.head? s).2 ++
         (runLoop env sp uo (i + 1) rest (runStep env sp uo i e rest.head? s).1).2) := by
  conv_lhs => rw [runLoop]
  rw [if_neg (by simp [h])]

/-- The loop preserves the state invariant. -/
theorem runLoop_inv (env : Env) (sp : ℚ) (uo : Option String) {hv : JSValue} :
    ∀ (events : List InteractionEvent) (i : ℕ) (s : RunState),
      StateInv hv s → StateInv hv (runLoop env sp uo i events s).1 := by
  intro events
  induction events with
  | nil => intro i s h; exact h
  | cons e rest ih =>
    intro i s h
    by_cases hst : stoppedAt env i = true
    · rw [runLoop_cons_stopped hst]; exact h
    · rw [runLoop_cons_go (by simpa using hst)]
      exact ih (i + 1) _ (stateInv_runStep env sp uo i e rest.head? s h)

/-- The loop never forgets the adopted page. -/
theorem runLoop_page_mono (env : Env) (sp : ℚ) (uo : Option String) :
    ∀ (events : List InteractionEvent) (i : ℕ) (s : RunState) (t : ℕ),
      s.page = some t → (runLoop env sp uo i events s).1.page = some t := by
  intro events
  induction events with
  | nil => intro i s t h; exact h
  | cons e rest ih =>
    intro i s t h
    by_cases hst : stoppedAt env i = true
    · rw [runLoop_cons_stopped hst]; exact h
    · rw [runLoop_cons_go (by simpa using hst)]
      exact ih (i + 1) _ t (runStep_page_mono env sp uo i e rest.head? s t h)

/-- The loop never touches finalResults. -/
theorem runLoop_finalResults (env : Env) (sp : ℚ) (uo : Option String) :
    ∀ (events : List InteractionEvent) (i : ℕ) (s : RunState),
      (runLoop env sp uo i events s).1.finalResults = s.finalResults := by
  intro events
  induction events with
  | nil => intro i s; rfl
  | cons e rest ih =>
    intro i s
    by_cases hst : stoppedAt env i = true
    · rw [runLoop_cons_stopped hst]
    · rw [runLoop_cons_go (by simpa using hst)]
      rw [ih (i + 1) _, runStep_finalResults]

/-- Every loop action belongs to an iteration at or after the start index. -/
theorem runLoop_idx_ge (env : Env) (sp : ℚ) (uo : Option String) :
    ∀ (events : List InteractionEvent) (i : ℕ) (s : RunState),
      ∀ a ∈ (runLoop env sp uo i events s).2, i ≤ a.idx := by
  intro events
  induction events with
  | nil => intro i s a ha; exact absurd ha (List.not_mem_nil a)
  | cons e rest ih =>
    intro i s a ha
    by_cases hst : stoppedAt env i = true
    · rw [runLoop_cons_stopped hst] at ha; exact absurd ha (List.not_mem_nil a)
    · rw [runLoop_cons_go (by simpa using hst)] at ha
      rcases List.mem_append.mp ha with h | h
      · exact le_of_eq (runStep_idx env sp uo i e rest.head? s a h).symm
      · exact le_trans (Nat.le_succ i) (ih (i + 1) _ a h)

/-- Without an external stop, the loop dispatches every event in order. -/
theorem runLoop_dispatch (env : Env) (sp : ℚ) (uo : Option String)
    (hstop : env.stopAt = none) :
    ∀ (events : List InteractionEvent) (i : ℕ) (s : RunState),
      dispatchEntries (runLoop env sp uo i events s).2 = events.enumFrom i := by
  intro events
  induction events with
  | nil => intro i s; rfl
  | cons e rest ih =>
    intro i s
    have hst : stoppedAt env i = false := by unfold stoppedAt; rw [hstop]
    rw [runLoop_cons_go hst, dispatchEntries_append, dispatchEntries_runStep,
      ih (i + 1) _, List.enumFrom_cons]
    rfl

/-- With a stop requested before iteration k, the loop dispatches exactly
the events before index k. -/
theorem runLoop_stop_dispatch (env : Env) (sp : ℚ) (uo : Option String) (k : ℕ)
    (hstop : env.stopAt = some k) :
    ∀ (events : List InteractionEvent) (i : ℕ) (s : RunState),
      dispatchEntries (runLoop env sp uo i events s).2 =
        (events.take (k - i)).enumFrom i := by
  intro events
  induction events with
  | nil => intro i s; simp [runLoop_nil, dispatchEntries]
  | cons e rest ih =>
    intro i s
    by_cases hki : k ≤ i
    · have hst : stoppedAt env i = true := by unfold stoppedAt; rw [hstop]; simpa using hki
      rw [runLoop_cons_stopped hst]
      have : k - i = 0 := Nat.sub_eq_zero_of_le hki
      rw [this]
      rfl
    · have hst : stoppedAt env i = false := by
        unfold stoppedAt; rw [hstop]; simpa using hki
      rw [runLoop_cons_go hst, dispatchEntries_append, dispatchEntries_runStep,
        ih (i + 1) _]
      have hk : k - i = (k - (i + 1)) + 1 := by omega
      rw [hk, List.take_succ_cons, List.enumFrom_cons]
      rfl

/-- The loop makes no onComplete invocation. -/
theorem runLoop_completeCalls (env : Env) (sp : ℚ) (uo : Option String) :
    ∀ (events : List InteractionEvent) (i : ℕ) (s : RunState),
      completeCalls (runLoop env sp uo i events s).2 = [] := by
  intro events
  induction events with
  | nil => intro i s; rfl
  | cons e rest ih =>
    intro i s
    by_cases hst : stoppedAt env i = true
    · rw [runLoop_cons_stopped hst]; rfl
    · rw [runLoop_cons_go (by simpa using hst), completeCalls_append,
        completeCalls_runStep, ih (i + 1) _]
      rfl

/-- Every navigation-failure log line in the loop trace is classified
according to the environment's failure message for its iteration. -/
theorem runLoop_navClass (env : Env) (sp : ℚ) (uo : Option String) :
    ∀ (events : List InteractionEvent) (i : ℕ) (s : RunState),
      ∀ a ∈ (runLoop env sp uo i events s).2, navClassOK env a := by
  intro events
  induction events with
  | nil => intro i s a ha; exact absurd ha (List.not_mem_nil a)
  | cons e rest ih =>
    intro i s a ha
    by_cases hst : stoppedAt env i = true
    · rw [runLoop_cons_stopped hst] at ha; exact absurd ha (List.not_mem_nil a)
    · rw [runLoop_cons_go (by simpa using hst)] at ha
      rcases List.mem_append.mp ha with h | h
      · rw [runStep_snd] at h
        rcases List.mem_cons.mp h with rfl | h2
        · trivial
        · exact stepActShape_navClass (stepTail_shape env sp uo i e rest.head? s a h2)
      · exact ih (i + 1) _ a h

/-- With hookless instrumentation the loop makes no hook invocation. -/
theorem runLoop_hookfree (env : Env) (sp : ℚ) (uo : Option String) {hv : JSValue}
    (hn : normalizeToHooks hv = noHooks) :
    ∀ (events : List InteractionEvent) (i : ℕ) (s : RunState),
      StateInv hv s → hookCallEntries (runLoop env sp uo i events s).2 = [] := by
  intro events
  induction events with
  | nil => intro i s _; rfl
  | cons e rest ih =>
    intro i s hinv
    by_cases hst : stoppedAt env i = true
    · rw [runLoop_cons_stopped hst]; rfl
    · rw [runLoop_cons_go (by simpa using hst), hookCallEntries_append,
        hookCallEntries_runStep env sp uo i e rest.head? s hinv hn,
        ih (i + 1) _ (stateInv_runStep env sp uo i e rest.head? s hinv)]
      rfl

/-- Without an external stop, the pacing sleeps of the loop trace obey the
pacing formula, per event index. -/
theorem runLoop_sleepAt (env : Env) (sp : ℚ) (uo : Option String)
    (hstop : env.stopAt = none) :
    ∀ (events : List InteractionEvent) (i : ℕ) (s : RunState) (k : ℕ),
      sleepEntriesAt (runLoop env sp uo i events s).2 (i + k) =
        pacingSleep sp events k := by
  intro events
  induction events with
  | nil =>
    intro i s k
    unfold pacingSleep
    simp [runLoop_nil, sleepEntriesAt]
  | cons e rest ih =>
    intro i s k
    have hst : stoppedAt env i = false := by unfold stoppedAt; rw [hstop]
    rw [runLoop_cons_go hst, sleepEntriesAt_append]
    cases k with
    | zero =>
      have hrest : sleepEntriesAt (runLoop env sp uo (i + 1) rest
          (runStep env sp uo i e rest.head? s).1).2 (i + 0) = [] := by
        refine sleepEntriesAt_eq_nil ?_
        intro a ha ms he
        have := runLoop_idx_ge env sp uo rest (i + 1) _ a ha
        subst he
        simp only [Action.idx] at this
        omega
      rw [hrest, List.append_nil, Nat.add_zero, sleepEntriesAt_runStep]
      cases rest with
      | nil => simp [pacingSleep]
      | cons ne rest2 =>
        unfold pacingSleep
        simp only [List.get?]
        by_cases hd : 0 < delayOf sp e (some ne)
        · rw [if_pos (by simp [hd]), if_pos hd]; rfl
        · rw [if_neg (by simp [hd]), if_neg hd]
    | succ k2 =>
      have hblk : sleepEntriesAt (runStep env sp uo i e rest.head? s).2 (i + (k2 + 1)) = [] := by
        refine sleepEntriesAt_eq_nil ?_
        intro a ha ms he
        have := runStep_idx env sp uo i e rest.head? s a ha
        subst he
        simp only [Action.idx] at this
        omega
      rw [hblk, List.nil_append]
      have harith : i + (k2 + 1) = (i + 1) + k2 := by omega
      rw [harith, ih (i + 1) _ k2]
      rfl

/-- Without an external stop, an event of unhandled type contributes no
automation call. -/
theorem runLoop_autoAt_unknown (env : Env) (sp : ℚ) (uo : Option String) :
    ∀ (events : List InteractionEvent) (i : ℕ) (s : RunState) (k : ℕ)
      (e : InteractionEvent), events.get? k = some e → e.type ∉ handledEventTypes →
      autoEntriesAt (runLoop env sp uo i events s).2 (i + k) = [] := by
  intro events
  induction events with
  | nil => intro i s k e hget; simp at hget
  | cons e0 rest ih =>
    intro i s k e hget hunk
    by_cases hst : stoppedAt env i = true
    · rw [runLoop_cons_stopped hst]; rfl
    · rw [runLoop_cons_go (by simpa using hst), autoEntriesAt_append]
      cases k with
      | zero =>
        simp only [List.get?] at hget
        injection hget with hg
        subst hg
        have hrest : autoEntriesAt (runLoop env sp uo (i + 1) rest
            (runStep env sp uo i e0 rest.head? s).1).2 (i + 0) = [] := by
          refine autoEntriesAt_eq_nil ?_
          intro a ha c he
          have := runLoop_idx_ge env sp uo rest (i + 1) _ a ha
          subst he
          simp only [Action.idx] at this
          omega
        rw [hrest, List.append_nil, Nat.add_zero,
          autoEntriesAt_runStep_unknown env sp uo i e0 rest.head? s hunk]
      | succ k2 =>
        have hblk : autoEntriesAt (runStep env sp uo i e0 rest.head? s).2 (i + (k2 + 1)) = [] := by
          refine autoEntriesAt_eq_nil ?_
          intro a ha c he
          have := runStep_idx env sp uo i e0 rest.head? s a ha
          subst he
          simp only [Action.idx] at this
          omega
        rw [hblk, List.nil_append]
        have harith : i + (k2 + 1) = (i + 1) + k2 := by omega
        rw [harith]
        exact ih (i + 1) _ k2 e hget hunk

/-!
Lemmas about the onComplete phase.
-/

theorem completeRun_forms (env : Env) (n : ℕ) (s : RunState) :
    ∀ a ∈ (completeRun env n s).2,
      (∃ t, a = .hookCall .complete n t) ∨ a = .hookError .complete n := by
  intro a ha
  unfold completeRun at ha
  repeat' split at ha
  all_goals simp at ha
  · rcases ha with ha | ha
    · exact Or.inl ⟨_, ha⟩
    · exact Or.inr ha
  · exact Or.inl ⟨_, ha⟩

theorem completeRun_state (env : Env) (n : ℕ) (s : RunState) :
    (completeRun env n s).1.pageMap = s.pageMap ∧
    (completeRun env n s).1.page = s.page ∧
    (completeRun env n s).1.closed = s.closed ∧
    (completeRun env n s).1.hooks = s.hooks := by
  unfold completeRun
  repeat' split
  all_goals simp

/-- Membership of an onComplete invocation in the completion trace. -/
theorem completeRun_mem_iff (env : Env) (n : ℕ) (s : RunState) (j t : ℕ) :
    (Action.hookCall .complete j t ∈ (completeRun env n s).2) ↔
      (j = n ∧ s.hooks.onComplete = true ∧ pageForComplete s = some t) := by
  unfold completeRun
  repeat' split
  all_goals simp_all
  all_goals exact fun _ => eq_comm

/-- The completion phase invokes onComplete at most once. -/
theorem completeRun_calls_len (env : Env) (n : ℕ) (s : RunState) :
    (completeCalls (completeRun env n s).2).length ≤ 1 := by
  unfold completeRun
  repeat' split
  all_goals simp [completeCalls]

/-- How the completion phase sets finalResults. -/
theorem completeRun_finalResults (env : Env) (n : ℕ) (s : RunState) :
    (completeRun env n s).1.finalResults =
      if s.hooks.onComplete = true ∧ (pageForComplete s).isSome = true ∧
          env.hookThrows .complete n = false
      then some env.onCompleteResult else s.finalResults := by
  unfold completeRun
  repeat' split
  all_goals simp_all

/-- Without an onComplete hook the completion phase is silent. -/
theorem completeRun_noHook {env : Env} {n : ℕ} {s : RunState}
    (h : s.hooks.onComplete = false) : (completeRun env n s).2 = [] := by
  unfold completeRun
  rw [if_neg (by simp [h])]

/-- If the onComplete hook threw, it was invoked. -/
theorem completeRun_hookError (env : Env) (n : ℕ) (s : RunState) {hk : HookKind} {j : ℕ}
    (h : Action.hookError hk j ∈ (completeRun env n s).2) :
    ∃ t, Action.hookCall .complete n t ∈ (completeRun env n s).2 := by
  unfold completeRun at h ⊢
  repeat' split at h
  all_goals simp_all

/-!
A hook that threw during the loop implies a page had been adopted, hence
onComplete has a page to run against.
-/

theorem mapGet_ne_nil {m : List (String × ℕ)} {pid : String} {t : ℕ}
    (h : mapGet m pid = some t) : m ≠ [] := by
  intro hm; subst hm; exact Option.noConfusion h

theorem beforeActs_mem_page {env : Env} {i : ℕ} {e : InteractionEvent} {s : RunState}
    {a : Action} (h : a ∈ beforeActsOf env i e s) : s.page.isSome = true := by
  unfold beforeActsOf at h
  by_cases hc : (s.page.isSome && s.hooks.onBeforeEvent) = true
  · exact ((Bool.and_eq_true _ _).mp hc).1
  · rw [if_neg hc] at h; exact absurd h (List.not_mem_nil a)

theorem adoptFirstTab_mem_page {env : Env} {i : ℕ} {r : EvResult} {a : Action}
    (h : a ∈ (adoptFirstTab env i r).2) : (adoptFirstTab env i r).1.page.isSome = true := by
  unfold adoptFirstTab at h ⊢
  rcases hres : r.result with _ | t <;> rcases hpage : r.state.page with _ | pt <;>
    rw [hres, hpage] at h
  all_goals first
    | exact absurd h (List.not_mem_nil a)
    | (simp only [apply_ite Prod.fst, ite_self]; simp)

theorem afterActs_mem_resolve {env : Env} {i : ℕ} {e : InteractionEvent} {sA : RunState}
    {a : Action} (h : a ∈ afterActsOf env i e sA) :
    ∃ t, resolveHookPage e.pageId sA.pageMap sA.page = some t := by
  unfold afterActsOf at h
  split at h
  · next t heq => exact ⟨t, heq⟩
  · exact absurd h (List.not_mem_nil a)

/-- A hook error during one iteration means the iteration ends with an
adopted page. -/
theorem runStep_hookError_page {hv : JSValue} (env : Env) (sp : ℚ) (uo : Option String)
    (i : ℕ) (e : InteractionEvent) (next : Option InteractionEvent) (s : RunState)
    (hinv : StateInv hv s) {hk : HookKind} {j : ℕ}
    (h : Action.hookError hk j ∈ (runStep env sp uo i e next s).2) :
    (runStep env sp uo i e next s).1.page.isSome = true := by
  rw [runStep_snd] at h
  rcases List.mem_cons.mp h with hc | hmem
  · cases hc
  · unfold stepTail at hmem
    rcases List.mem_append.mp hmem with h2 | h2
    · rcases List.mem_append.mp h2 with h3 | h3
      · rcases List.mem_append.mp h3 with h4 | h4
        · -- onBeforeEvent: the page variable was already set
          have hp := beforeActs_mem_page h4
          rcases Option.isSome_iff_exists.mp hp with ⟨t, ht⟩
          rw [runStep_page_mono env sp uo i e next s t ht]
          rfl
        · -- dispatch actions carry no hook errors
          rcases evActShape_replayEvent env i e uo s _ h4 with ⟨c, hc⟩ | ⟨u, m, hc, _⟩ | ⟨u, m, hc, _⟩ <;>
            cases hc
      · -- setup or onAfterEvent
        rw [runStep_fst]
        unfold postOf at h3 ⊢
        split at h3
        · simp at h3
        · next hnt =>
          rw [if_neg hnt]
          dsimp only [] at h3 ⊢
          rcases List.mem_append.mp h3 with h4 | h4
          · exact adoptFirstTab_mem_page h4
          · rcases afterActs_mem_resolve h4 with ⟨t, ht⟩
            unfold resolveHookPage at ht
            split at ht
            · -- resolved through the map: the map is nonempty, use the invariant
              have hInvStep : StateInv hv (runStep env sp uo i e next s).1 :=
                stateInv_runStep env sp uo i e next s hinv
              rw [runStep_fst] at hInvStep
              unfold postOf at hInvStep
              rw [if_neg hnt] at hInvStep
              exact hInvStep.2.2 (fun hmnil => by rw [hmnil] at ht; exact Option.noConfusion ht)
            · rw [ht]; rfl
    · rcases sleepActs_forms sp i e next _ h2 with ⟨ms, hc⟩; cases hc

/-- A hook error anywhere in the loop trace means the loop ends with an
adopted page. -/
theorem runLoop_hookError_page (env : Env) (sp : ℚ) (uo : Option String) {hv : JSValue} :
    ∀ (events : List InteractionEvent) (i : ℕ) (s : RunState), StateInv hv s →
      ∀ {hk : HookKind} {j : ℕ}, Action.hookError hk j ∈ (runLoop env sp uo i events s).2 →
      (runLoop env sp uo i events s).1.page.isSome = true := by
  intro events
  induction events with
  | nil => intro i s _ hk j h; exact absurd h (List.not_mem_nil _)
  | cons e rest ih =>
    intro i s hinv hk j h
    by_cases hst : stoppedAt env i = true
    · rw [runLoop_cons_stopped hst] at h; exact absurd h (List.not_mem_nil _)
    · rw [runLoop_cons_go (by simpa using hst)] at h ⊢
      rcases List.mem_append.mp h with h2 | h2
      · have hp := runStep_hookError_page env sp uo i e rest.head? s hinv h2
        rcases Option.isSome_iff_exists.mp hp with ⟨t, ht⟩
        rw [runLoop_page_mono env sp uo rest (i + 1) _ t ht]
        rfl
      · exact ih (i + 1) _ (stateInv_runStep env sp uo i e rest.head? s hinv) h2

/-!
Top-level run lemmas.
-/

/-- The state Replay.run starts its loop with. -/
def initState (hv : JSValue) : RunState :=
  { hooksValue := hv, hooks := normalizeToHooks hv }

theorem initState_inv (hv : JSValue) : StateInv hv (initState hv) :=
  ⟨rfl, rfl, fun h => absurd rfl h⟩

theorem runReplay_trace (env : Env) (sp : ℚ) (uo : Option String) (hv : JSValue)
    (events : List InteractionEvent) :
    (runReplay env sp uo hv events).trace =
      (runLoop env sp uo 0 events (initState hv)).2 ++
      (completeRun env events.length (runLoop env sp uo 0 events (initState hv)).1).2 := rfl

theorem runReplay_state (env : Env) (sp : ℚ) (uo : Option String) (hv : JSValue)
    (events : List InteractionEvent) :
    (runReplay env sp uo hv events).state =
      (completeRun env events.length (runLoop env sp uo 0 events (initState hv)).1).1 := rfl

theorem runReplay_finalResults (env : Env) (sp : ℚ) (uo : Option String) (hv : JSValue)
    (events : List InteractionEvent) :
    (runReplay env sp uo hv events).finalResults =
      (completeRun env events.length (runLoop env sp uo 0 events (initState hv)).1).1.finalResults := rfl

theorem dispatchEntries_completeRun (env : Env) (n : ℕ) (s : RunState) :
    dispatchEntries (completeRun env n s).2 = [] := by
  refine dispatchEntries_eq_nil ?_
  intro a ha j e2 he
  subst he
  rcases completeRun_forms env n s _ ha with ⟨t, hc⟩ | hc <;> cases hc

theorem sleepEntriesAt_completeRun (env : Env) (n : ℕ) (s : RunState) (j : ℕ) :
    sleepEntriesAt (completeRun env n s).2 j = [] := by
  refine sleepEntriesAt_eq_nil ?_
  intro a ha ms he
  subst he
  rcases completeRun_forms env n s _ ha with ⟨t, hc⟩ | hc <;> cases hc

theorem autoEntriesAt_completeRun (env : Env) (n : ℕ) (s : RunState) (j : ℕ) :
    autoEntriesAt (completeRun env n s).2 j = [] := by
  refine autoEntriesAt_eq_nil ?_
  intro a ha c he
  subst he
  rcases completeRun_forms env n s _ ha with ⟨t, hc⟩ | hc <;> cases hc

theorem pageForComplete_completeRun (env : Env) (n : ℕ) (s : RunState) :
    pageForComplete (completeRun env n s).1 = pageForComplete s := by
  obtain ⟨h1, h2, h3, _⟩ := completeRun_state env n s
  unfold pageForComplete
  rw [h1, h2, h3]

theorem pageForComplete_isSome {s : RunState} (h : s.page.isSome = true) :
    (pageForComplete s).isSome = true := by
  unfold pageForComplete
  cases hgl : ((s.pageMap.map Prod.snd).filter (fun t => !(s.closed.contains t))).getLast? with
  | none => simpa [Option.orElse] using h
  | some t => simp [Option.orElse]

theorem mem_completeCalls {l : List Action} {j t : ℕ}
    (h : Action.hookCall .complete j t ∈ l) : (j, t) ∈ completeCalls l := by
  rw [completeCalls, List.mem_filterMap]
  exact ⟨_, h, rfl⟩

/-- A hook-presence record exposing no hook is the empty record. -/
theorem hasHook_eq_false {h : HookPresence} (hf : h.hasHook = false) : h = noHooks := by
  cases h
  simp_all [HookPresence.hasHook, noHooks]

/-- The pacing delay toward a nonexistent next event is zero. -/
theorem delayOf_none (sp : ℚ) (e : InteractionEvent) : delayOf sp e none = 0 := by
  unfold delayOf jsRound
  norm_num

/-- The dispatch order of a full run without external stop. -/
theorem runReplay_dispatch (env : Env) (sp : ℚ) (uo : Option String) (hv : JSValue)
    (events : List InteractionEvent) (hstop : env.stopAt = none) :
    dispatchEntries (runReplay env sp uo hv events).trace = events.enum := by
  rw [runReplay_trace, dispatchEntries_append,
    runLoop_dispatch env sp uo hstop events 0 (initState hv),
    dispatchEntries_completeRun, List.append_nil]
  rfl

/-!
Concrete fixtures used by witnesses and counterexamples.
-/

/-- Environment in which every external call succeeds and no stop occurs. -/
def trivialEnv : Env := {}

/-- Environment whose onAfterEvent invocations all throw. -/
def throwingEnv : Env := { hookThrows := fun hk _ => hk == HookKind.afterEvent }

/-- Environment that requests a stop before iteration 1. -/
def stopEnv : Env := { stopAt := some 1 }

/-- A newtab event on logical tab "a". -/
def newtabEv : InteractionEvent := { timestamp := 0, type := "newtab", pageId := some "a" }

/-- A click event on logical tab "a". -/
def clickEv : InteractionEvent :=
  { timestamp := 0, type := "click", pageId := some "a"
  , data := { x := some 10, y := some 20 } }

/-- An event of a type replay has no case for. -/
def unknownEv : InteractionEvent := { timestamp := 0, type := "mousemove", pageId := some "a" }

/-!
Claim theorems.
-/

/-- C1: for every recording replayed without external stop, the i-th
dispatch is exactly events[i] — no event is skipped and order is exact —
and an event whose type is outside the dispatcher's vocabulary produces no
automation call while still consuming its pacing delay. -/
theorem C1_dispatch_order (env : Env) (sp : ℚ) (uo : Option String) (hv : JSValue)
    (events : List InteractionEvent) (hstop : env.stopAt = none) :
    dispatchEntries (runReplay env sp uo hv events).trace = events.enum ∧
    (∀ k e, events.get? k = some e → e.type ∉ handledEventTypes →
      autoEntriesAt (runReplay env sp uo hv events).trace k = [] ∧
      sleepEntriesAt (runReplay env sp uo hv events).trace k = pacingSleep sp events k) := by
  refine ⟨runReplay_dispatch env sp uo hv events hstop, ?_⟩
  intro k e hget hunk
  constructor
  · rw [runReplay_trace, autoEntriesAt_append, autoEntriesAt_completeRun, List.append_nil]
    have := runLoop_autoAt_unknown env sp uo events 0 (initState hv) k e hget hunk
    simpa using this
  · rw [runReplay_trace, sleepEntriesAt_append, sleepEntriesAt_completeRun, List.append_nil]
    have := runLoop_sleepAt env sp uo hstop events 0 (initState hv) k
    simpa using this

/-- Witness for C1 at a concrete recording containing an unhandled event
type. -/
theorem C1_dispatch_order_witness :
    trivialEnv.stopAt = none ∧
    [unknownEv].get? 0 = some unknownEv ∧
    unknownEv.type ∉ handledEventTypes ∧
    (dispatchEntries (runReplay trivialEnv 1 none (.obj allHooks) [unknownEv]).trace =
        [unknownEv].enum ∧
      (∀ k e, [unknownEv].get? k = some e → e.type ∉ handledEventTypes →
        autoEntriesAt (runReplay trivialEnv 1 none (.obj allHooks) [unknownEv]).trace k = [] ∧
        sleepEntriesAt (runReplay trivialEnv 1 none (.obj allHooks) [unknownEv]).trace k =
          pacingSleep 1 [unknownEv] k)) :=
  ⟨rfl, rfl, by decide,
    C1_dispatch_order trivialEnv 1 none (.obj allHooks) [unknownEv] rfl⟩

/-- C2: without external stop the wait after event i is
round((t_next - t_i) / max(0.1, speed)), emitted only when positive and
clamped to 3000 ms, and the last event has zero trailing delay. -/
theorem C2_pacing (env : Env) (sp : ℚ) (uo : Option String) (hv : JSValue)
    (events : List InteractionEvent) (hstop : env.stopAt = none) (i : ℕ) :
    sleepEntriesAt (runReplay env sp uo hv events).trace i = pacingSleep sp events i ∧
    (events.length ≤ i + 1 →
      sleepEntriesAt (runReplay env sp uo hv events).trace i = []) := by
  have hmain : sleepEntriesAt (runReplay env sp uo hv events).trace i =
      pacingSleep sp events i := by
    rw [runReplay_trace, sleepEntriesAt_append, sleepEntriesAt_completeRun, List.append_nil]
    have := runLoop_sleepAt env sp uo hstop events 0 (initState hv) i
    simpa using this
  refine ⟨hmain, fun hlen => ?_⟩
  rw [hmain]
  unfold pacingSleep
  rw [List.get?_eq_none.mpr hlen]
  rcases events.get? i with _ | e <;> rfl

/-- Witness for C2 at a concrete two-event recording. -/
theorem C2_pacing_witness :
    trivialEnv.stopAt = none ∧
    (sleepEntriesAt (runReplay trivialEnv 1 none (.obj noHooks) [newtabEv, clickEv]).trace 0 =
        pacingSleep 1 [newtabEv, clickEv] 0 ∧
      ([newtabEv, clickEv].length ≤ 0 + 1 →
        sleepEntriesAt (runReplay trivialEnv 1 none (.obj noHooks) [newtabEv, clickEv]).trace 0 = [])) :=
  ⟨rfl, C2_pacing trivialEnv 1 none (.obj noHooks) [newtabEv, clickEv] rfl 0⟩

/-- C3: a hook exception is caught: every event is still dispatched in
order and onComplete is still invoked. -/
theorem C3_hook_isolation (env : Env) (sp : ℚ) (uo : Option String)
    (events : List InteractionEvent) (hstop : env.stopAt = none) (hk : HookKind) (j : ℕ)
    (hthrow : Action.hookError hk j ∈ (runReplay env sp uo (.obj allHooks) events).trace) :
    dispatchEntries (runReplay env sp uo (.obj allHooks) events).trace = events.enum ∧
    ∃ t, Action.hookCall .complete events.length t ∈
      (runReplay env sp uo (.obj allHooks) events).trace := by
  refine ⟨runReplay_dispatch env sp uo (.obj allHooks) events hstop, ?_⟩
  rw [runReplay_trace] at hthrow ⊢
  rcases List.mem_append.mp hthrow with hin | hin
  · -- the hook threw during the loop, so a page was adopted
    have hpage := runLoop_hookError_page env sp uo events 0 (initState (.obj allHooks))
      (initState_inv _) hin
    have hinv := runLoop_inv env sp uo events 0 (initState (.obj allHooks)) (initState_inv _)
    obtain ⟨_, hhooks, _⟩ := hinv
    rcases Option.isSome_iff_exists.mp
      (pageForComplete_isSome (s := (runLoop env sp uo 0 events (initState (.obj allHooks))).1)
        hpage) with ⟨t, ht⟩
    refine ⟨t, List.mem_append_right _ ?_⟩
    rw [completeRun_mem_iff]
    exact ⟨rfl, by rw [hhooks]; rfl, ht⟩
  · -- the onComplete hook itself threw, so it was invoked
    rcases completeRun_hookError env events.length _ hin with ⟨t, htmem⟩
    exact ⟨t, List.mem_append_right _ htmem⟩

/-- Witness for C3: a run whose onAfterEvent hook throws on the first event
still dispatches everything and still invokes onComplete. -/
theorem C3_hook_isolation_witness :
    throwingEnv.stopAt = none ∧
    Action.hookError .afterEvent 0 ∈
      (runReplay throwingEnv 1 none (.obj allHooks) [newtabEv]).trace ∧
    (dispatchEntries (runReplay throwingEnv 1 none (.obj allHooks) [newtabEv]).trace =
        [newtabEv].enum ∧
      ∃ t, Action.hookCall .complete [newtabEv].length t ∈
        (runReplay throwingEnv 1 none (.obj allHooks) [newtabEv]).trace) := by
  have hmem : Action.hookError .afterEvent 0 ∈
      (runReplay throwingEnv 1 none (.obj allHooks) [newtabEv]).trace := by
    simp [runReplay, runLoop, runStep, stepTail, beforeActsOf, postOf, adoptFirstTab,
      afterActsOf, sleepActsOf, replayEvent, replayNewtab, hookActs, stoppedAt,
      throwingEnv, newtabEv, normalizeToHooks, allHooks, mapSet, mapGet, resolveHookPage,
      delayOf_none, initState]
  exact ⟨rfl, hmem,
    C3_hook_isolation throwingEnv 1 none [newtabEv] rfl .afterEvent 0 hmem⟩

/-- C4 claim formula is falsified by a run with a loaded onComplete hook
and no events: no tab ever exists, so onComplete is not invoked at all. -/
theorem C4_counterexample : ¬ ClaimC4 := by
  intro h
  have h1 := h trivialEnv 1 none (.obj allHooks) [] rfl
  have h0 : completeCalls (runReplay trivialEnv 1 none (.obj allHooks) []).trace = [] := rfl
  rw [h0] at h1
  exact absurd h1 (by decide)

/-- C4 amended: onComplete is invoked at most once, exactly when the hook
is loaded and a candidate page exists — the last non-closed tab in creation
order, else the first-created tab — its return value becoming the final
result; an external stop observed from iteration k onward cuts the dispatch
sequence to the first k events. -/
theorem C4_once_amended (env : Env) (sp : ℚ) (uo : Option String) (hv : JSValue)
    (events : List InteractionEvent) :
    ((completeCalls (runReplay env sp uo hv events).trace).length ≤ 1) ∧
    (∀ t, Action.hookCall .complete events.length t ∈ (runReplay env sp uo hv events).trace ↔
      ((runReplay env sp uo hv events).state.hooks.onComplete = true ∧
        pageForComplete (runReplay env sp uo hv events).state = some t)) ∧
    (∀ k, env.stopAt = some k →
      dispatchEntries (runReplay env sp uo hv events).trace = (events.take k).enum) ∧
    ((runReplay env sp uo hv events).state.hooks.onComplete = true →
      (pageForComplete (runReplay env sp uo hv events).state).isSome = true →
      env.hookThrows .complete events.length = false →
      (runReplay env sp uo hv events).finalResults = some env.onCompleteResult) := by
  have hsf := completeRun_state env events.length
    (runLoop env sp uo 0 events (initState hv)).1
  refine ⟨?_, ?_, ?_, ?_⟩
  · rw [runReplay_trace, completeCalls_append,
      runLoop_completeCalls env sp uo events 0 (initState hv), List.nil_append]
    exact completeRun_calls_len env events.length _
  · intro t
    rw [runReplay_trace, runReplay_state]
    constructor
    · intro hmem
      rcases List.mem_append.mp hmem with hin | hin
      · have hmm := mem_completeCalls hin
        rw [runLoop_completeCalls env sp uo events 0 (initState hv)] at hmm
        exact absurd hmm (List.not_mem_nil _)
      · have := (completeRun_mem_iff env events.length _ events.length t).mp hin
        rw [pageForComplete_completeRun, hsf.2.2.2]
        exact ⟨this.2.1, this.2.2⟩
    · intro ⟨hc, hp⟩
      rw [pageForComplete_completeRun] at hp
      rw [hsf.2.2.2] at hc
      exact List.mem_append_right _
        ((completeRun_mem_iff env events.length _ events.length t).mpr ⟨rfl, hc, hp⟩)
  · intro k hk
    rw [runReplay_trace, dispatchEntries_append, dispatchEntries_completeRun,
      List.append_nil, runLoop_stop_dispatch env sp uo k hk events 0 (initState hv)]
    rfl
  · intro hc hp hthr
    rw [runReplay_state, pageForComplete_completeRun] at hp
    rw [runReplay_state, hsf.2.2.2] at hc
    rw [runReplay_finalResults, completeRun_finalResults, if_pos ⟨hc, hp, hthr⟩]

/-- Witness for the amended C4 at a concrete one-event recording, including
the stop path. -/
theorem C4_once_amended_witness :
    stopEnv.stopAt = some 1 ∧
    (runReplay trivialEnv 1 none (.obj allHooks) [newtabEv]).state.hooks.onComplete = true ∧
    (pageForComplete (runReplay trivialEnv 1 none (.obj allHooks) [newtabEv]).state).isSome = true ∧
    trivialEnv.hookThrows .complete 1 = false ∧
    (dispatchEntries (runReplay stopEnv 1 none (.obj allHooks) [newtabEv, clickEv]).trace =
      ([newtabEv, clickEv].take 1).enum) ∧
    (runReplay trivialEnv 1 none (.obj allHooks) [newtabEv]).finalResults =
      some trivialEnv.onCompleteResult :=
  ⟨rfl, rfl, rfl, rfl,
    (C4_once_amended stopEnv 1 none (.obj allHooks) [newtabEv, clickEv]).2.2.1 1 rfl,
    (C4_once_amended trivialEnv 1 none (.obj allHooks) [newtabEv]).2.2.2 rfl rfl rfl⟩

/-- C5: an instrumentation value that is neither a function nor an object
with a recognized hook is rejected by tryCompileInstrumentation (the
configuration error), normalizes to no hooks, and the run proceeds
hookless: all events dispatch in order, no hook is ever invoked, and
finalResults stays empty. -/
theorem C5_degradation (hv : JSValue) (hfunc : isFunc hv = false)
    (hobj : isObjWithHook hv = false) (env : Env) (sp : ℚ) (uo : Option String)
    (events : List InteractionEvent) (hstop : env.stopAt = none) :
    tryCompileInstrumentation (.ok hv) = (false, none) ∧
    normalizeToHooks hv = noHooks ∧
    dispatchEntries (runReplay env sp uo hv events).trace = events.enum ∧
    hookCallEntries (runReplay env sp uo hv events).trace = [] ∧
    (runReplay env sp uo hv events).finalResults = none := by
  have hnorm : normalizeToHooks hv = noHooks := by
    cases hv with
    | func th tr => simp [isFunc] at hfunc
    | obj h => exact hasHook_eq_false (by simpa [isObjWithHook] using hobj)
    | _ => rfl
  have hloopinv := runLoop_inv env sp uo events 0 (initState hv) (initState_inv hv)
  obtain ⟨_, hlh, _⟩ := hloopinv
  have hocf : (runLoop env sp uo 0 events (initState hv)).1.hooks.onComplete = false := by
    rw [hlh, hnorm]; rfl
  refine ⟨?_, hnorm, runReplay_dispatch env sp uo hv events hstop, ?_, ?_⟩
  · cases hv with
    | func th tr => simp [isFunc] at hfunc
    | obj h => simp [tryCompileInstrumentation, hobj]
    | _ => simp [tryCompileInstrumentation, hobj]
  · rw [runReplay_trace, hookCallEntries_append,
      runLoop_hookfree env sp uo hnorm events 0 (initState hv) (initState_inv hv),
      completeRun_noHook hocf]
    rfl
  · rw [runReplay_finalResults, completeRun_finalResults,
      if_neg (by rw [hocf]; simp),
      runLoop_finalResults env sp uo events 0 (initState hv)]
    rfl

/-- Witness for C5 with the claim's plain-number example. -/
theorem C5_degradation_witness :
    isFunc (.num 42) = false ∧ isObjWithHook (.num 42) = false ∧
    trivialEnv.stopAt = none ∧
    (tryCompileInstrumentation (.ok (.num 42)) = (false, none) ∧
      normalizeToHooks (.num 42) = noHooks ∧
      dispatchEntries (runReplay trivialEnv 1 none (.num 42) [newtabEv]).trace =
        [newtabEv].enum ∧
      hookCallEntries (runReplay trivialEnv 1 none (.num 42) [newtabEv]).trace = [] ∧
      (runReplay trivialEnv 1 none (.num 42) [newtabEv]).finalResults = none) :=
  ⟨rfl, rfl, rfl, C5_degradation (.num 42) rfl rfl trivialEnv 1 none [newtabEv] rfl⟩

/-- C7 claim formula is falsified at the tolerance boundary: conditions
equal to the Offline preset except for latency 10 differ by exactly 10 ms,
which the claim's inclusive "within plus-or-minus 10 ms" accepts but the
code's strict comparison rejects. -/
theorem C7_counterexample : ¬ ClaimC7 := by
  intro h
  have h1 := (h ⟨true, 0, 0, 10⟩).mpr
    ⟨("Offline", ⟨true, 0, 0, 0⟩), by norm_num [getNetworkPresets], rfl, rfl, rfl,
      by norm_num [abs]⟩
  have h0 : detectNetworkConditionsChange ⟨true, 0, 0, 10⟩ = none := by
    norm_num [detectNetworkConditionsChange, getNetworkPresets, abs, max_def]
  rw [h0] at h1
  simp at h1

/-- C7 amended: a conditions value matches a named preset iff offline flag
and throughputs are exactly equal and the latency differs by strictly less
than 10 ms; the claim's two worked examples hold. -/
theorem C7_preset_matching_amended :
    (∀ c : NetworkConditions,
      (detectNetworkConditionsChange c).isSome = true ↔
        ∃ p ∈ getNetworkPresets,
          p.2.offline = c.offline ∧
          p.2.downloadThroughput = c.downloadThroughput ∧
          p.2.uploadThroughput = c.uploadThroughput ∧
          |p.2.latency - c.latency| < 10) ∧
    detectNetworkConditionsChange ⟨false, 153600, 76800, 560⟩ = some "Fast 3G" ∧
    detectNetworkConditionsChange ⟨false, 153600, 76800, 9999⟩ = none := by
  refine ⟨?_, ?_, ?_⟩
  · intro c
    unfold detectNetworkConditionsChange
    rw [Option.isSome_map', List.find?_isSome]
    constructor
    · rintro ⟨p, hp, hpred⟩
      simp only [Bool.and_eq_true, beq_iff_eq, decide_eq_true_eq] at hpred
      exact ⟨p, hp, hpred.1.1.1, hpred.1.1.2, hpred.1.2, hpred.2⟩
    · rintro ⟨p, hp, h1, h2, h3, h4⟩
      exact ⟨p, hp, by
        simp only [Bool.and_eq_true, beq_iff_eq, decide_eq_true_eq]
        exact ⟨⟨⟨h1, h2⟩, h3⟩, h4⟩⟩
  · norm_num [detectNetworkConditionsChange, getNetworkPresets, abs, max_def]
  · norm_num [detectNetworkConditionsChange, getNetworkPresets, abs, max_def]

/-- C8 claim formula is falsified: a name-resolution failure while the
session is NOT offline-emulated is still logged as a warning by the code,
where the claim requires an error log. -/
theorem C8_counterexample : ¬ ClaimC8 := by
  intro h
  have h2 := (h "net::ERR_NAME_NOT_RESOLVED at http://x/" false).2 (by simp)
  rw [show navFailureLogClass "net::ERR_NAME_NOT_RESOLVED at http://x/" = .warning from
    by decide] at h2
  exact LogClass.noConfusion h2

/-- C8 amended: a connectivity-class navigation failure is logged as a
warning regardless of the offline-emulation state, every other failure as
an error; no navigation failure aborts the run — all events still dispatch
in order, and every failure log line in the trace is classified by the
failure message alone. -/
theorem C8_navigation_failures_amended (env : Env) (sp : ℚ) (uo : Option String)
    (hv : JSValue) (events : List InteractionEvent) (hstop : env.stopAt = none) :
    (∀ msg, navFailureLogClass msg = .warning ↔ isOfflineError msg = true) ∧
    (∀ msg, navFailureLogClass msg = .error ↔ isOfflineError msg = false) ∧
    dispatchEntries (runReplay env sp uo hv events).trace = events.enum ∧
    (∀ a ∈ (runReplay env sp uo hv events).trace, navClassOK env a) := by
  refine ⟨?_, ?_, runReplay_dispatch env sp uo hv events hstop, ?_⟩
  · intro msg
    unfold navFailureLogClass
    by_cases hoe : isOfflineError msg = true <;> simp [hoe]
  · intro msg
    unfold navFailureLogClass
    by_cases hoe : isOfflineError msg = true <;> simp [hoe]
  · intro a ha
    rw [runReplay_trace] at ha
    rcases List.mem_append.mp ha with hin | hin
    · exact runLoop_navClass env sp uo events 0 (initState hv) a hin
    · rcases completeRun_forms env events.length _ a hin with ⟨t, rfl⟩ | rfl <;> trivial

/-- Witness for the amended C8 at a concrete recording. -/
theorem C8_navigation_failures_amended_witness :
    trivialEnv.stopAt = none ∧
    isOfflineError "net::ERR_NAME_NOT_RESOLVED at http://x/" = true ∧
    navFailureLogClass "net::ERR_NAME_NOT_RESOLVED at http://x/" = .warning ∧
    isOfflineError "Timeout 60000ms exceeded" = false ∧
    navFailureLogClass "Timeout 60000ms exceeded" = .error ∧
    dispatchEntries (runReplay trivialEnv 1 none (.obj noHooks) [newtabEv]).trace =
      [newtabEv].enum :=
  ⟨rfl, by decide, by decide, by decide, by decide,
    (C8_navigation_failures_amended trivialEnv 1 none (.obj noHooks) [newtabEv] rfl).2.2.1⟩

/-- C9 claim formula is falsified: an event whose pageId is absent from the
tab map resolves to no tab at all, not to the first tracked tab. -/
theorem C9_counterexample : ¬ ClaimC9 := by
  intro h
  have h1 := h (some "b") [("a", 7)]
  exact absurd h1 (by decide)

/-- C9 amended: a pageId present in the map resolves to its tab; a pageId
absent from the map resolves to no tab — in which case the dispatch case's
action is skipped — and only an event without a pageId falls back to the
first currently tracked tab. -/
theorem C9_tab_resolution_amended :
    (∀ pid m t, mapGet m pid = some t → resolveTab (some pid) m = some t) ∧
    (∀ pid m, mapGet m pid = none → resolveTab (some pid) m = none) ∧
    (∀ m : List (String × ℕ), resolveTab none m = (m.map Prod.snd).head?) ∧
    (∀ (env : Env) (i : ℕ) (e : InteractionEvent) (uo : Option String) (s : RunState),
      e.type = "click" → resolveTab e.pageId s.pageMap = none →
      (replayEvent env i e uo s).acts = []) := by
  refine ⟨?_, ?_, ?_, ?_⟩
  · intro pid m t hm; unfold resolveTab; exact hm
  · intro pid m hm; unfold resolveTab; exact hm
  · intro m; rfl
  · intro env i e uo s htype hres
    have h1 : e.type ≠ "newtab" := by rw [htype]; decide
    have h2 : e.type ≠ "closetab" := by rw [htype]; decide
    have h3 : e.type ≠ "navigation" := by rw [htype]; decide
    unfold replayEvent
    rw [if_neg h1, if_neg h2, if_neg h3, if_pos htype]
    unfold replayClick
    rw [hres]
    rcases e.data.x with _ | x <;> rcases e.data.y with _ | y <;> rfl

/-- A click event addressed to a pageId that is not in the tab map. -/
def clickEvB : InteractionEvent :=
  { timestamp := 0, type := "click", pageId := some "b"
  , data := { x := some 10, y := some 20 } }

/-- A run state tracking one tab under pageId "a". -/
def stateA : RunState := { pageMap := [("a", 7)] }

/-- Witness for the amended C9 at concrete maps and a concrete event. -/
theorem C9_tab_resolution_amended_witness :
    mapGet [("a", 7)] "a" = some 7 ∧ resolveTab (some "a") [("a", 7)] = some 7 ∧
    mapGet [("a", 7)] "b" = none ∧ resolveTab (some "b") [("a", 7)] = none ∧
    resolveTab none [("a", 7)] = some 7 ∧
    clickEvB.type = "click" ∧
    (replayEvent trivialEnv 0 clickEvB none stateA).acts = [] :=
  ⟨by decide, C9_tab_resolution_amended.1 "a" [("a", 7)] 7 (by decide),
   by decide, C9_tab_resolution_amended.2.1 "b" [("a", 7)] (by decide),
   C9_tab_resolution_amended.2.2.1 [("a", 7)], rfl,
   C9_tab_resolution_amended.2.2.2 trivialEnv 0 clickEvB none stateA rfl (by decide)⟩

/-- C10 claim formula is falsified: a function whose trial invocation
returns a non-hook value (for example the number 5) yields ok = false, even
though the evaluated value is a function. -/
theorem C10_counterexample : ¬ ClaimC10 := by
  intro h
  have h1 := (h (.ok (.func false (.num 5)))).1 false (.num 5) rfl
  exact absurd h1 (by decide)

/-- C10 amended: full characterization of tryCompileInstrumentation —
a function whose trial call throws is accepted unvalidated; a function
whose trial call returns an object with a hook is accepted; a function
whose trial call returns anything else is rejected; a non-function value is
accepted iff it is an object with a hook; a throwing evaluation is
rejected. -/
theorem C10_tryCompile_amended :
    (∀ r, tryCompileInstrumentation (.ok (.func true r)) = (true, some (.func true r))) ∧
    (∀ r, isObjWithHook r = true →
      tryCompileInstrumentation (.ok (.func false r)) = (true, some (.func false r))) ∧
    (∀ r, isObjWithHook r = false →
      tryCompileInstrumentation (.ok (.func false r)) = (false, none)) ∧
    (∀ v, isFunc v = false → isObjWithHook v = true →
      tryCompileInstrumentation (.ok v) = (true, some v)) ∧
    (∀ v, isFunc v = false → isObjWithHook v = false →
      tryCompileInstrumentation (.ok v) = (false, none)) ∧
    tryCompileInstrumentation (.error ()) = (false, none) := by
  refine ⟨?_, ?_, ?_, ?_, ?_, rfl⟩
  · intro r; rfl
  · intro r hr; simp [tryCompileInstrumentation, hr]
  · intro r hr; simp [tryCompileInstrumentation, hr]
  · intro v hf ho; cases v <;> simp_all [tryCompileInstrumentation, isFunc]
  · intro v hf ho; cases v <;> simp_all [tryCompileInstrumentation, isFunc]

/-- Witness for the amended C10 at concrete values. -/
theorem C10_tryCompile_amended_witness :
    isObjWithHook (.obj allHooks) = true ∧
    isObjWithHook (.num 5) = false ∧
    isFunc (.num 42) = false ∧ isObjWithHook (.num 42) = false ∧
    tryCompileInstrumentation (.ok (.func true (.num 5))) =
      (true, some (.func true (.num 5))) ∧
    tryCompileInstrumentation (.ok (.func false (.obj allHooks))) =
      (true, some (.func false (.obj allHooks))) ∧
    tryCompileInstrumentation (.ok (.func false (.num 5))) = (false, none) ∧
    tryCompileInstrumentation (.ok (.num 42)) = (false, none) :=
  ⟨rfl, rfl, rfl, rfl,
   C10_tryCompile_amended.1 (.num 5),
   C10_tryCompile_amended.2.1 (.obj allHooks) rfl,
   C10_tryCompile_amended.2.2.1 (.num 5) rfl,
   C10_tryCompile_amended.2.2.2.2.1 (.num 42) rfl rfl⟩

/-!
Well-formedness of parsed URL components, and the parse/serialize
roundtrip needed to talk about the components of a rewritten URL.
-/

/-- Well-formedness of URL components: nonempty colon-free scheme, nonempty
host section free of path delimiters, slash-initial pathname free of query
delimiters, query starting with ? and free of fragments, fragment starting
with #. Every successfully parsed URL satisfies this, and every
well-formed component list serializes and re-parses exactly. -/
def wfURL (u : URLParts) : Bool :=
  (!u.scheme.data.isEmpty && u.scheme.data.all (fun c => c != ':')) &&
  (!u.hostport.data.isEmpty && u.hostport.data.all hostChar) &&
  ((u.pathname.data.head? == some '/') && u.pathname.data.all pathChar) &&
  (u.search.data.isEmpty || ((u.search.data.head? == some '?') &&
    u.search.data.all (fun c => c != '#'))) &&
  (u.hash.data.isEmpty || (u.hash.data.head? == some '#'))

theorem takeWhile_dropWhile_append {p : Char → Bool} :
    ∀ (l₁ l₂ : List Char), l₁.all p = true →
      (∀ c, l₂.head? = some c → p c = false) →
      (l₁ ++ l₂).takeWhile p = l₁ ∧ (l₁ ++ l₂).dropWhile p = l₂ := by
  intro l₁
  induction l₁ with
  | nil =>
    intro l₂ _ h2
    cases l₂ with
    | nil => exact ⟨rfl, rfl⟩
    | cons c t =>
      have hc := h2 c rfl
      simp [List.takeWhile_cons, List.dropWhile_cons, hc]
  | cons a t ih =>
    intro l₂ h1 h2
    rw [List.all_cons, Bool.and_eq_true] at h1
    have := ih l₂ h1.2 h2
    simp [List.takeWhile_cons, List.dropWhile_cons, h1.1, this.1, this.2]

theorem head_of_takeWhile {p : Char → Bool} {l : List Char} {a : Char} {t : List Char}
    (h : l.takeWhile p = a :: t) : l.head? = some a ∧ p a = true := by
  cases l with
  | nil => simp at h
  | cons b m =>
    rw [List.takeWhile_cons] at h
    by_cases hb : p b = true
    · rw [if_pos hb] at h
      injection h with h1 _
      subst h1
      exact ⟨rfl, hb⟩
    · rw [if_neg hb] at h
      cases h

/-- Heads that stop the host section are path, query or fragment openers. -/
theorem hostChar_false {a : Char} (h : hostChar a = false) :
    a = '/' ∨ a = '?' ∨ a = '#' := by
  by_cases h1 : a = '/'
  · exact Or.inl h1
  · by_cases h2 : a = '?'
    · exact Or.inr (Or.inl h2)
    · by_cases h3 : a = '#'
      · exact Or.inr (Or.inr h3)
      · exfalso
        rw [show hostChar a = true from by simp [hostChar, h1, h2, h3]] at h
        cases h

/-- Heads that stop the pathname section are query or fragment openers. -/
theorem pathChar_false {a : Char} (h : pathChar a = false) : a = '?' ∨ a = '#' := by
  by_cases h1 : a = '?'
  · exact Or.inl h1
  · by_cases h2 : a = '#'
    · exact Or.inr h2
    · exfalso
      rw [show pathChar a = true from by simp [pathChar, h1, h2]] at h
      cases h

theorem head_dropWhile_false {p : Char → Bool} {l : List Char} {a : Char}
    (h : (l.dropWhile p).head? = some a) : p a = false := by
  have hm := List.head?_dropWhile_not p l
  rw [h] at hm
  exact hm

/-- A successfully parsed URL has well-formed components. -/
theorem parseChars_wf {cs : List Char} {u : URLParts} (h : parseChars cs = some u) :
    wfURL u = true := by
  unfold parseChars at h
  split at h
  case h_2 => exact absurd h (by simp)
  case h_1 rest hdrop =>
    simp only [] at h
    split at h
    case isTrue => exact absurd h (by simp)
    case isFalse hsch =>
      split at h
      case isTrue => exact absurd h (by simp)
      case isFalse hhp =>
        injection h with h
        subst h
        unfold wfURL
        simp only [Bool.and_eq_true, Bool.or_eq_true]
        refine ⟨⟨⟨⟨⟨by simpa using hsch, List.all_takeWhile⟩,
          by simpa using hhp, List.all_takeWhile⟩, ?_⟩, ?_⟩, ?_⟩
        · -- pathname
          cases hpe : (rest.dropWhile hostChar).takeWhile pathChar with
          | nil => exact ⟨by decide, by decide⟩
          | cons a t2 =>
            have hhead := head_of_takeWhile hpe
            have hfail := head_dropWhile_false hhead.1
            have ha : a = '/' := by
              rcases hostChar_false hfail with h1 | h2 | h3
              · exact h1
              · rw [h2] at hhead; exact absurd hhead.2 (by decide)
              · rw [h3] at hhead; exact absurd hhead.2 (by decide)
            subst ha
            have hall : (('/' :: t2).all pathChar) = true := by
              rw [← hpe]; exact List.all_takeWhile
            simp [hall]
        · -- search
          cases hse : ((rest.dropWhile hostChar).dropWhile pathChar).takeWhile
              (fun c => c != '#') with
          | nil => left; decide
          | cons a t2 =>
            right
            have hhead := head_of_takeWhile hse
            have hfail := head_dropWhile_false hhead.1
            have ha : a = '?' := by
              rcases pathChar_false hfail with h1 | h2
              · exact h1
              · rw [h2] at hhead; exact absurd hhead.2 (by decide)
            subst ha
            have hall : (('?' :: t2).all fun c => c != '#') = true := by
              rw [← hse]; exact List.all_takeWhile
            simp [hall]
        · -- hash
          cases hhe : ((rest.dropWhile hostChar).dropWhile pathChar).dropWhile
              (fun c => c != '#') with
          | nil => left; decide
          | cons a t2 =>
            right
            have hfail : (fun c : Char => c != '#') a = false := by
              refine head_dropWhile_false (p := fun c => c != '#')
                (l := (rest.dropWhile hostChar).dropWhile pathChar) ?_
              rw [hhe]
              rfl
            have ha : a = '#' := by
              by_cases hq : a = '#'
              · exact hq
              · exfalso
                rw [show (fun c => c != '#') a = true from by simp [hq]] at hfail
                cases hfail
            subst ha
            simp

theorem head?_append_left {l l' : List Char} {a : Char} (h : l.head? = some a) :
    (l ++ l').head? = some a := by
  cases l with
  | nil => simp at h
  | cons b t => simpa using h

/-- Serializing well-formed URL components and re-parsing them recovers the
components exactly. -/
theorem parseChars_href {u : URLParts} (h : wfURL u = true) : parseURL u.href = some u := by
  unfold wfURL at h
  simp only [Bool.and_eq_true, Bool.or_eq_true] at h
  obtain ⟨⟨⟨⟨⟨hs1, hs2⟩, hh1, hh2⟩, hp1, hp2⟩, hsr⟩, hhh⟩ := h
  have hp1' : u.pathname.data.head? = some '/' := by simpa using hp1
  have hdata : (u.href).data = u.scheme.data ++ (':' :: '/' :: '/' ::
      (u.hostport.data ++ (u.pathname.data ++ (u.search.data ++ u.hash.data)))) := by
    unfold URLParts.href URLParts.origin
    rw [String.data_append, String.data_append, String.data_append, String.data_append,
      String.data_append]
    rw [show (("://" : String)).data = [':', '/', '/'] from rfl]
    simp [List.append_assoc]
  have hstep1 := takeWhile_dropWhile_append (p := fun c => c != ':')
    u.scheme.data (':' :: '/' :: '/' ::
      (u.hostport.data ++ (u.pathname.data ++ (u.search.data ++ u.hash.data))))
    hs2 (fun c hc => by simp at hc; subst hc; decide)
  have hstep2 := takeWhile_dropWhile_append (p := hostChar)
    u.hostport.data (u.pathname.data ++ (u.search.data ++ u.hash.data))
    hh2 (fun c hc => by
      rw [head?_append_left hp1'] at hc
      injection hc with hc
      rw [← hc]; decide)
  have hstep3 := takeWhile_dropWhile_append (p := pathChar)
    u.pathname.data (u.search.data ++ u.hash.data)
    hp2 (fun c hc => by
      rcases hsr with hse | ⟨hsq, _⟩
      · rw [List.isEmpty_iff.mp hse, List.nil_append] at hc
        rcases hhh with hhe | hq
        · rw [List.isEmpty_iff.mp hhe] at hc; cases hc
        · rw [show u.hash.data.head? = some '#' from by simpa using hq] at hc
          injection hc with hc
          rw [← hc]; decide
      · rw [head?_append_left (show u.search.data.head? = some '?' from by simpa using hsq)] at hc
        injection hc with hc
        rw [← hc]; decide)
  have hstep4 := takeWhile_dropWhile_append (p := fun c => c != '#')
    u.search.data u.hash.data
    (by
      rcases hsr with hse | ⟨_, hall⟩
      · rw [List.isEmpty_iff.mp hse]; rfl
      · exact hall)
    (fun c hc => by
      rcases hhh with hhe | hq
      · rw [List.isEmpty_iff.mp hhe] at hc; cases hc
      · rw [show u.hash.data.head? = some '#' from by simpa using hq] at hc
        injection hc with hc
        rw [← hc]; decide)
  have hpne : u.pathname.data.isEmpty = false := by
    cases hpd : u.pathname.data with
    | nil => rw [hpd] at hp1'; cases hp1'
    | cons a t => rfl
  unfold parseURL parseChars
  rw [hdata, hstep1.1, hstep1.2]
  simp only []
  rw [if_neg (by simpa using hs1), hstep2.1, hstep2.2,
    if_neg (by simpa using hh1), hstep3.1, hstep3.2, hstep4.1, hstep4.2, hpne]
  rfl

theorem parseURL_wf {s : String} {u : URLParts} (h : parseURL s = some u) :
    wfURL u = true := parseChars_wf h

/-- C6: for every parseable navigation URL (other than the empty and
about:blank sentinels the code passes through) and parseable override base,
the rewritten target takes scheme, host and port from the override and
path, query and fragment from the original: it serializes those mixed
components, and parsing it back yields exactly them. -/
theorem C6_url_override (o b : String) (po pb : URLParts)
    (ho : parseURL o = some po) (hb : parseURL b = some pb)
    (h1 : o ≠ "") (h2 : o ≠ "about:blank") :
    replaceBaseUrl o b =
      URLParts.href ⟨pb.scheme, pb.hostport, po.pathname, po.search, po.hash⟩ ∧
    parseURL (replaceBaseUrl o b) =
      some ⟨pb.scheme, pb.hostport, po.pathname, po.search, po.hash⟩ := by
  have hwfo := parseURL_wf ho
  have hwfb := parseURL_wf hb
  have hwfm : wfURL ⟨pb.scheme, pb.hostport, po.pathname, po.search, po.hash⟩ = true := by
    unfold wfURL at hwfo hwfb ⊢
    simp only [Bool.and_eq_true, Bool.or_eq_true] at hwfo hwfb ⊢
    obtain ⟨⟨⟨⟨_, _⟩, Po⟩, Qo⟩, Fo⟩ := hwfo
    obtain ⟨⟨⟨⟨Sb, Hb⟩, _⟩, _⟩, _⟩ := hwfb
    exact ⟨⟨⟨⟨Sb, Hb⟩, Po⟩, Qo⟩, Fo⟩
  have hrepl : replaceBaseUrl o b =
      URLParts.href ⟨pb.scheme, pb.hostport, po.pathname, po.search, po.hash⟩ := by
    unfold replaceBaseUrl
    rw [if_neg (by simp [h1, h2]), ho, hb]
    rfl
  refine ⟨hrepl, ?_⟩
  rw [hrepl]
  exact parseChars_href hwfm

/-- Witness for C6 at the claim's worked example. -/
theorem C6_url_override_witness :
    parseURL "https://prod.example.com/login?x=1#y" =
      some ⟨"https", "prod.example.com", "/login", "?x=1", "#y"⟩ ∧
    parseURL "http://localhost:3000" = some ⟨"http", "localhost:3000", "/", "", ""⟩ ∧
    "https://prod.example.com/login?x=1#y" ≠ "" ∧
    "https://prod.example.com/login?x=1#y" ≠ "about:blank" ∧
    (replaceBaseUrl "https://prod.example.com/login?x=1#y" "http://localhost:3000" =
        URLParts.href ⟨"http", "localhost:3000", "/login", "?x=1", "#y"⟩ ∧
      parseURL (replaceBaseUrl "https://prod.example.com/login?x=1#y" "http://localhost:3000") =
        some ⟨"http", "localhost:3000", "/login", "?x=1", "#y"⟩) ∧
    replaceBaseUrl "https://prod.example.com/login?x=1#y" "http://localhost:3000" =
      "http://localhost:3000/login?x=1#y" :=
  ⟨by decide, by decide, by decide, by decide,
   C6_url_override "https://prod.example.com/login?x=1#y" "http://localhost:3000"
     ⟨"https", "prod.example.com", "/login", "?x=1", "#y"⟩
     ⟨"http", "localhost:3000", "/", "", ""⟩
     (by decide) (by decide) (by decide) (by decide),
   by decide⟩

end DebugAgent
